import Mathlib

/-!
Verification development for the trail log-analytics service.

This file gives a shallow embedding, in Lean 4, of the core pipeline of the
repository: the log-line parsers (Traefik extended CLF and Apache/Nginx
Combined), the bot/browser/OS classifier, the aggregator's in-memory
accumulation and flush loop, the tailer's per-tick offset logic, the backfill
pass over rotated files, and the retention sweeper.  Strings are modelled as
lists of characters; machine integers as `Int` with explicit 64-bit bounds
where the Go code can fail on overflow; fallible code returns `Option`.
Database tables are modelled as association lists or finitely-supported maps.

Conventions used throughout:
 - Go `string` is modelled as `List Char`; all parsing is performed on the
   character list directly, mirroring the anchored regular expressions of the
   source with deterministic maximal-munch field readers.
 - `time.Time` (an absolute instant) is modelled as `Int` seconds since the
   Unix epoch; CLF timestamps are converted with the standard civil-date
   arithmetic, and the UTC hour bucket is the instant floored to a multiple
   of 3600 (the source formats that instant as "YYYY-MM-DDTHH:00:00Z", an
   injective, order-preserving encoding of the bucket).
 - cryptographic hashing (`hashIP`) and URL host extraction (`extractDomain`)
   are kept as parameters of the aggregator environment: their output values
   never influence any claim checked here.
-/

/-! ## Character and string utilities (models of Go `strings` helpers) -/

/-- Characters matched by the RE2 character class `\s` ( `[\t\n\f\r ]` ),
used by the source regexes via `\S`. -/
def isGoSpace (c : Char) : Bool :=
  c == ' ' || c == '\t' || c == '\n' || c == '\x0c' || c == '\r'

/-- Characters trimmed by Go `strings.TrimSpace` (ASCII part of
`unicode.IsSpace`; the user agents involved are ASCII). -/
def isGoTrimSpace (c : Char) : Bool :=
  c == ' ' || c == '\t' || c == '\n' || c == '\x0b' || c == '\x0c' || c == '\r'

/-- ASCII lowering of one character; agrees with Go `strings.ToLower` on the
ASCII inputs relevant here. -/
def toLowerChar (c : Char) : Char :=
  if 'A' ≤ c && c ≤ 'Z' then Char.ofNat (c.toNat + 32) else c

/-- Model of Go `strings.ToLower` (ASCII fragment). -/
def lowerStr (s : List Char) : List Char :=
  s.map toLowerChar

/-- Model of Go `strings.TrimSpace`. -/
def trimSpace (s : List Char) : List Char :=
  ((s.dropWhile isGoTrimSpace).reverse.dropWhile isGoTrimSpace).reverse

/-- Auxiliary: does the second list start with the first one
(Go `strings.HasPrefix` on char lists)? -/
def startsWithList : List Char → List Char → Bool
  | [], _ => true
  | _ :: _, [] => false
  | c :: cs, d :: ds => c == d && startsWithList cs ds

/-- Model of Go `strings.Contains`: `needle` occurs as a contiguous substring
of `hay`. -/
def containsSub (hay needle : List Char) : Bool :=
  match hay with
  | [] => startsWithList needle []
  | _ :: tl => startsWithList needle hay || containsSub tl needle

/-! ## Bot classifier (package `bot`) -/

/-- Known bot signatures to check in User-Agent strings (source:
`botSignatures`). -/
def botSignatures : List (List Char) :=
  ["bot".toList, "crawl".toList, "spider".toList, "slurp".toList,
   "googlebot".toList, "bingbot".toList, "ahrefsbot".toList,
   "censysinspect".toList, "cms-checker".toList, "facebookexternalhit".toList,
   "go-http-client".toList, "curl".toList, "wget".toList,
   "python-requests".toList, "scrapy".toList, "headlesschrome".toList,
   "phantomjs".toList, "selenium".toList, "bot/".toList, "+http".toList]

/-- Known bot names for display categorization (source: `knownBots`). -/
def knownBots : List (List Char) :=
  ["ahrefsbot".toList, "googlebot".toList, "bingbot".toList,
   "yandexbot".toList, "baiduspider".toList, "duckduckbot".toList,
   "slurp".toList, "facebookexternalhit".toList, "twitterbot".toList,
   "linkedinbot".toList, "censysinspect".toList, "cms-checker".toList]

/-- Model of `bot.isBot`: checks if a User-Agent string matches known bot
patterns. -/
def isBot (userAgent : List Char) : Bool :=
  let ua := lowerStr userAgent
  if ua == [] || ua == ['-'] then true
  else if trimSpace userAgent == "Mozilla/5.0".toList then true
  else botSignatures.any (fun sig => containsSub ua sig)

/-- Model of `bot.ClassifyUA`: display category for the User-Agent, used for
the `user_agents` table. -/
def ClassifyUA (userAgent : List Char) : List Char :=
  let ua := lowerStr userAgent
  if ua == [] || ua == ['-'] then "unknown".toList
  else
    match knownBots.find? (fun b => containsSub ua b) with
    | some b => b
    | none =>
      if isBot userAgent then "bot".toList
      else if containsSub ua "edg/".toList then "Edge".toList
      else if containsSub ua "chrome/".toList && !containsSub ua "chromium".toList then
        "Chrome".toList
      else if containsSub ua "firefox/".toList then "Firefox".toList
      else if containsSub ua "safari/".toList && !containsSub ua "chrome/".toList then
        "Safari".toList
      else "unknown".toList

/-- Model of `bot.ClassifyBrowser`: high-level browser name from the
User-Agent string. -/
def ClassifyBrowser (ua : List Char) : List Char :=
  let lower := lowerStr ua
  if lower == [] || lower == ['-'] then "Unknown".toList
  else if isBot ua then "Bot".toList
  else if containsSub lower "edg/".toList then "Edge".toList
  else if containsSub lower "opr/".toList || containsSub lower "opera/".toList then
    "Opera".toList
  else if containsSub lower "chrome/".toList || containsSub lower "chromium/".toList then
    "Chrome".toList
  else if containsSub lower "firefox/".toList then "Firefox".toList
  else if containsSub lower "safari/".toList then "Safari".toList
  else "Other".toList

/-- Model of `bot.ClassifyOS`: operating system from the User-Agent string. -/
def ClassifyOS (ua : List Char) : List Char :=
  let lower := lowerStr ua
  if lower == [] || lower == ['-'] then "Other".toList
  else if containsSub lower "iphone".toList || containsSub lower "ipad".toList
      || containsSub lower "ipod".toList then "iOS".toList
  else if containsSub lower "android".toList then "Android".toList
  else if containsSub lower "cros".toList then "ChromeOS".toList
  else if containsSub lower "windows".toList then "Windows".toList
  else if containsSub lower "macintosh".toList || containsSub lower "mac os".toList then
    "macOS".toList
  else if containsSub lower "linux".toList then "Linux".toList
  else "Other".toList


/-! ## Parser (package `parser`)

The two source regexes are anchored at the start of the line and are built
from runs `\S+`, `[^"]*`, `[^\]]+`, `\d+` each followed by a fixed delimiter
character, so on every line they match they behave as deterministic
maximal-munch field readers.  The embedding below implements exactly that
reading discipline over the character list. -/

/-- Splits a list into the maximal leading run satisfying `p` and the rest. -/
def takeWhileSplit (p : Char → Bool) : List Char → List Char × List Char
  | [] => ([], [])
  | c :: cs =>
    if p c then
      let r := takeWhileSplit p cs
      (c :: r.1, r.2)
    else ([], c :: cs)

/-- Consumes one expected literal character. -/
def expectChar (c : Char) : List Char → Option (List Char)
  | [] => none
  | d :: ds => if d == c then some ds else none

/-- Reads `\S+`: a nonempty maximal run of non-whitespace characters. -/
def pSpanNonSpace (l : List Char) : Option (List Char × List Char) :=
  match takeWhileSplit (fun c => !isGoSpace c) l with
  | ([], _) => none
  | (tok, rest) => some (tok, rest)

/-- Reads `(\S+) `: a field followed by a literal space. -/
def pField (l : List Char) : Option (List Char × List Char) := do
  let s ← pSpanNonSpace l
  let r ← expectChar ' ' s.2
  pure (s.1, r)

/-- Reads `(\d+)`: a nonempty maximal digit run. -/
def pDigits (l : List Char) : Option (List Char × List Char) :=
  match takeWhileSplit Char.isDigit l with
  | ([], _) => none
  | (tok, rest) => some (tok, rest)

/-- Reads `"([^"]*)"`: a quoted, possibly empty field. -/
def pQuoted (l : List Char) : Option (List Char × List Char) := do
  let r ← expectChar '"' l
  let s := takeWhileSplit (fun c => c != '"') r
  let r2 ← expectChar '"' s.2
  pure (s.1, r2)

/-- Reads `\[([^\]]+)\]`: the bracketed timestamp field. -/
def pBracket (l : List Char) : Option (List Char × List Char) := do
  let r ← expectChar '[' l
  match takeWhileSplit (fun c => c != ']') r with
  | ([], _) => none
  | (tok, r2) => do
    let r3 ← expectChar ']' r2
    pure (tok, r3)

/-- Reads `"(\S+) (\S+) ([^"]+)" `: the quoted request field
(method, path, protocol). -/
def pRequest (l : List Char) :
    Option ((List Char × List Char × List Char) × List Char) := do
  let r ← expectChar '"' l
  let m ← pSpanNonSpace r
  let r ← expectChar ' ' m.2
  let p ← pSpanNonSpace r
  let r ← expectChar ' ' p.2
  match takeWhileSplit (fun c => c != '"') r with
  | ([], _) => none
  | (proto, r2) => do
    let r3 ← expectChar '"' r2
    let r4 ← expectChar ' ' r3
    pure ((m.1, p.1, proto), r4)

/-- Largest value of a signed 64-bit integer, the bound at which Go
`strconv.Atoi` / `strconv.ParseInt(s, 10, 64)` start failing. -/
def maxInt64 : Nat := 9223372036854775807

/-- Numeric value of a digit run. -/
def digitsToNat (l : List Char) : Nat :=
  l.foldl (fun n c => 10 * n + (c.toNat - 48)) 0

/-- Model of `strconv.Atoi` / `ParseInt(s, 10, 64)` applied to an all-digit
regex capture: the conversion fails exactly when the value overflows int64. -/
def goAtoiDigits (l : List Char) : Option Int :=
  if digitsToNat l ≤ maxInt64 then some (digitsToNat l) else none

/-- Month number from its case-insensitive three-letter abbreviation
(Go `time.Parse` matches month names ignoring case). -/
def month3 (a b c : Char) : Option Int :=
  let s := [toLowerChar a, toLowerChar b, toLowerChar c]
  if s == "jan".toList then some 1
  else if s == "feb".toList then some 2
  else if s == "mar".toList then some 3
  else if s == "apr".toList then some 4
  else if s == "may".toList then some 5
  else if s == "jun".toList then some 6
  else if s == "jul".toList then some 7
  else if s == "aug".toList then some 8
  else if s == "sep".toList then some 9
  else if s == "oct".toList then some 10
  else if s == "nov".toList then some 11
  else if s == "dec".toList then some 12
  else none

/-- One decimal digit. -/
def dig (c : Char) : Option Nat :=
  if c.isDigit then some (c.toNat - 48) else none

/-- Two fixed decimal digits (layout elements "02", "15", "04", "05"). -/
def dig2 (a b : Char) : Option Nat := do
  pure ((← dig a) * 10 + (← dig b))

/-- Four fixed decimal digits (layout element "2006"). -/
def dig4 (a b c d : Char) : Option Nat := do
  pure (((← dig a) * 10 + (← dig b)) * 100 + ((← dig c) * 10 + (← dig d)))

/-- Gregorian leap-year test (years from the CLF timestamp are 0–9999). -/
def isLeapYear (y : Int) : Bool :=
  (y % 4 == 0 && y % 100 != 0) || y % 400 == 0

/-- Number of days in a month, used by Go `time.Parse` to validate the day. -/
def daysInMonth (y m : Int) : Int :=
  if m == 2 then (if isLeapYear y then 29 else 28)
  else if m == 4 || m == 6 || m == 9 || m == 11 then 30
  else 31

/-- Days since 1970-01-01 of a civil date (standard era-based algorithm,
matching Go `time.Date` arithmetic). -/
def daysFromCivil (y m d : Int) : Int :=
  let yy := if m ≤ 2 then y - 1 else y
  let era := yy.fdiv 400
  let yoe := yy - era * 400
  let mm := if m > 2 then m - 3 else m + 9
  let doy := (153 * mm + 2) / 5 + d - 1
  let doe := yoe * 365 + yoe / 4 - yoe / 100 + doy
  era * 146097 + doe - 719468

/-- Model of `time.Parse` with the CLF layout `02/Jan/2006:15:04:05 -0700`:
fixed-width fields, validated ranges, result expressed as seconds since the
Unix epoch (`time.Time` is an absolute instant). -/
def parseClfTimestamp (ts : List Char) : Option Int :=
  match ts with
  | [d1, d2, q1, m1, m2, m3, q2, y1, y2, y3, y4, q3, h1, h2, q4, n1, n2, q5,
     s1, s2, q6, sg, z1, z2, z3, z4] =>
    if q1 == '/' && q2 == '/' && q3 == ':' && q4 == ':' && q5 == ':' && q6 == ' ' then do
      let day ← dig2 d1 d2
      let mon ← month3 m1 m2 m3
      let year ← dig4 y1 y2 y3 y4
      let hour ← dig2 h1 h2
      let minu ← dig2 n1 n2
      let sec ← dig2 s1 s2
      let zh ← dig2 z1 z2
      let zm ← dig2 z3 z4
      let sign : Int ← if sg == '+' then some 1 else if sg == '-' then some (-1) else none
      if hour ≤ 23 && minu ≤ 59 && sec ≤ 59 && 1 ≤ day &&
          (day : Int) ≤ daysInMonth (year : Int) mon then
        some (daysFromCivil (year : Int) mon (day : Int) * 86400 +
          (hour : Int) * 3600 + (minu : Int) * 60 + (sec : Int) -
          sign * ((zh : Int) * 3600 + (zm : Int) * 60))
      else none
    else none
  | _ => none

/-- Model of the `unquote` closure of both parsers: the literal `-` decodes
to the empty string. -/
def unquote (s : List Char) : List Char :=
  if s == ['-'] then [] else s

/-- Model of `parser.LogEntry`: one parsed access log line. -/
structure LogEntry where
  IP : List Char
  Timestamp : Int
  Method : List Char
  Path : List Char
  Protocol : List Char
  Status : Int
  Bytes : Int
  Referer : List Char
  UserAgent : List Char
  Router : List Char
  Backend : List Char
  DurationMs : Int
deriving DecidableEq, Repr

/-- Reads `"([^"]*)" `: a quoted field followed by a literal space. -/
def pQuotedSp (l : List Char) : Option (List Char × List Char) := do
  let q ← pQuoted l
  let r ← expectChar ' ' q.2
  pure (q.1, r)

/-- Reads `(\d+) `: a digit run followed by a literal space. -/
def pDigitsSp (l : List Char) : Option (List Char × List Char) := do
  let d ← pDigits l
  let r ← expectChar ' ' d.2
  pure (d.1, r)

/-- Raw captures of the shared head of both regexes:
`^(\S+) \S+ (\S+) \[([^\]]+)\] "(\S+) (\S+) ([^"]+)" (\d+) `. -/
structure HeadFields where
  ip : List Char
  ts : List Char
  method : List Char
  path : List Char
  protocol : List Char
  statusS : List Char
deriving DecidableEq, Repr

/-- Reads the shared head of both log formats, up to and including the
status field and its trailing space. -/
def pHead (line : List Char) : Option (HeadFields × List Char) := do
  let ip ← pField line
  let idnt ← pField ip.2
  let usr ← pField idnt.2
  let ts ← pBracket usr.2
  let r ← expectChar ' ' ts.2
  let req ← pRequest r
  let statusS ← pDigitsSp req.2
  pure (⟨ip.1, ts.1, req.1.1, req.1.2.1, req.1.2.2, statusS.1⟩, statusS.2)

/-- Raw captures of the Traefik-specific tail of the regex:
`(\d+) "([^"]*)" "([^"]*)" \d+ "([^"]*)" "([^"]*)" (\d+)ms`. -/
structure TraefikTail where
  bytesS : List Char
  referer : List Char
  userAgent : List Char
  router : List Char
  backend : List Char
  durS : List Char
deriving DecidableEq, Repr

/-- Reads the Traefik tail: bytes (a nonempty digit run — the literal dash is
not accepted here), referer, user agent, request number, router, backend and
the `(\d+)ms` duration. -/
def pTraefikTail (l : List Char) : Option TraefikTail := do
  let bytesS ← pDigitsSp l
  let ref ← pQuotedSp bytesS.2
  let ua ← pQuotedSp ref.2
  let reqnum ← pDigitsSp ua.2
  let router ← pQuotedSp reqnum.2
  let backend ← pQuotedSp router.2
  let durS ← pDigits backend.2
  let r ← expectChar 'm' durS.2
  let _ ← expectChar 's' r
  pure ⟨bytesS.1, ref.1, ua.1, router.1, backend.1, durS.1⟩

/-- Model of `parser.ParseTraefik`: parses one Traefik extended-CLF line.
The `bytes` position is read by `(\d+)`, a nonempty digit run. -/
def ParseTraefik (line : List Char) : Option LogEntry := do
  let h ← pHead line
  let tl ← pTraefikTail h.2
  let t ← parseClfTimestamp h.1.ts
  let status ← goAtoiDigits h.1.statusS
  let bytes ← goAtoiDigits tl.bytesS
  let dur ← goAtoiDigits tl.durS
  pure { IP := h.1.ip, Timestamp := t, Method := h.1.method, Path := h.1.path,
         Protocol := h.1.protocol, Status := status, Bytes := bytes,
         Referer := unquote tl.referer, UserAgent := unquote tl.userAgent,
         Router := unquote tl.router, Backend := unquote tl.backend,
         DurationMs := dur }

/-- Reads `(\d+|-)` of the Combined regex: a digit run, or the literal dash
(tried in that alternation order). -/
def pBytesDashOr (l : List Char) : Option (List Char × List Char) :=
  match takeWhileSplit Char.isDigit l with
  | ([], _) =>
    match l with
    | '-' :: r => some (['-'], r)
    | _ => none
  | (tok, rest) => some (tok, rest)

/-- Reads the optional trailing `(?:\s+(\S+))?` of the Combined regex:
the captured token, or `[]` when the optional group does not match. -/
def optRequestTimeToken (l : List Char) : List Char :=
  let s := takeWhileSplit isGoSpace l
  if s.1 == [] then []
  else (takeWhileSplit (fun c => !isGoSpace c) s.2).1

/-- Helper for `parseGoFloat`: mantissa value with optional exponent part. -/
def parseExpPart (sign : Int) (ip fp rest : List Char) : Option ℚ :=
  let base : ℚ := (digitsToNat ip : ℚ) + (digitsToNat fp : ℚ) / ((10 : ℚ) ^ fp.length)
  let v : ℚ := (sign : ℚ) * base
  match rest with
  | [] => some v
  | e :: r =>
    if e == 'e' || e == 'E' then
      let es : Int × List Char :=
        match r with
        | '+' :: r2 => (1, r2)
        | '-' :: r2 => (-1, r2)
        | r2 => (1, r2)
      match takeWhileSplit Char.isDigit es.2 with
      | ([], _) => none
      | (ed, []) => some (v * (10 : ℚ) ^ (es.1 * (digitsToNat ed : Int)))
      | (_, _ :: _) => none
    else none

/-- Model of `strconv.ParseFloat(s, 64)` on its decimal forms: optional sign,
digits with optional fraction, optional decimal exponent, consuming the whole
token.  The value is kept exact as a rational; the hexadecimal, `Inf` and
`NaN` forms accepted by Go do not occur as request times and are modelled as
absent. -/
def parseGoFloat (t : List Char) : Option ℚ :=
  let s : Int × List Char :=
    match t with
    | '+' :: r => (1, r)
    | '-' :: r => (-1, r)
    | r => (1, r)
  let m := takeWhileSplit Char.isDigit s.2
  match m.2 with
  | '.' :: r =>
    let f := takeWhileSplit Char.isDigit r
    if m.1 == [] && f.1 == [] then none
    else parseExpPart s.1 m.1 f.1 f.2
  | rest =>
    if m.1 == [] then none
    else parseExpPart s.1 m.1 [] rest

/-- Model of `math.Round`: nearest integer, rounding half away from zero. -/
def goMathRound (q : ℚ) : Int :=
  if 0 ≤ q then ⌊q + (1 : ℚ) / 2⌋ else -⌊-q + (1 : ℚ) / 2⌋

/-- Raw captures of the Combined-specific tail of the regex:
`(\d+|-) "([^"]*)" "([^"]*)"(?:\s+(\S+))?`. -/
structure CombinedTail where
  bytesS : List Char
  referer : List Char
  userAgent : List Char
  token : List Char
deriving DecidableEq, Repr

/-- Reads the Combined tail: bytes (digit run or dash), referer, user agent,
and the optional trailing request-time token. -/
def pCombinedTail (l : List Char) : Option CombinedTail := do
  let bytesS ← pBytesDashOr l
  let r ← expectChar ' ' bytesS.2
  let ref ← pQuotedSp r
  let ua ← pQuoted ref.2
  pure ⟨bytesS.1, ref.1, ua.1, optRequestTimeToken ua.2⟩

/-- Model of `parser.ParseCombined`: parses one Apache/Nginx Combined line.
The `bytes` position is read by `(\d+|-)`; the optional trailing request-time
token is converted with `ParseFloat`, and on conversion failure it is
silently ignored (`durationMs` stays 0). -/
def ParseCombined (line : List Char) : Option LogEntry := do
  let h ← pHead line
  let tl ← pCombinedTail h.2
  let t ← parseClfTimestamp h.1.ts
  let status ← goAtoiDigits h.1.statusS
  let bytes ← (if tl.bytesS == ['-'] then some (0 : Int) else goAtoiDigits tl.bytesS)
  let dur : Int :=
    match tl.token with
    | [] => 0
    | tk =>
      match parseGoFloat tk with
      | some q => goMathRound (q * 1000)
      | none => 0
  pure { IP := h.1.ip, Timestamp := t, Method := h.1.method, Path := h.1.path,
         Protocol := h.1.protocol, Status := status, Bytes := bytes,
         Referer := unquote tl.referer, UserAgent := unquote tl.userAgent,
         Router := "server".toList, Backend := [], DurationMs := dur }

/-- Model of `parser.Format`. -/
inductive Format
  | auto
  | traefik
  | combined
deriving DecidableEq, Repr

/-- Model of `(*Parser).ParseLine`: dispatch on the configured format; in
`auto` mode try the Traefik grammar first and fall back to Combined, without
changing the stored format. -/
def ParseLine (format : Format) (line : List Char) : Option LogEntry :=
  match format with
  | .traefik => ParseTraefik line
  | .combined => ParseCombined line
  | .auto =>
    match ParseTraefik line with
    | some entry => some entry
    | none =>
      match ParseCombined line with
      | some entry => some entry
      | none => none

/-- Model of `parser.HourBucket`: the instant floored to its UTC hour.  The
source renders this bucket as the string "YYYY-MM-DDTHH:00:00Z", an injective
and order-preserving encoding of the bucket instant. -/
def HourBucket (t : Int) : Int :=
  3600 * t.fdiv 3600


/-! ## Traffic classification of a parsed entry (package `bot`) -/

/-- Model of `bot.Classify`: category of a log entry from router and
User-Agent — unrouted when the parsed router is empty, else bot by
User-Agent, else human. -/
def Classify (entry : LogEntry) : List Char :=
  if entry.Router == [] then "unrouted".toList
  else if isBot entry.UserAgent then "bot".toList
  else "human".toList

/-! ## Aggregator (package `aggregator`)

Buffer maps are modelled as functions into `Option` values: `none` is a key
absent from the Go map.  The `Hour` component of every key is the UTC hour
bucket instant (the source stores its formatted string, an injective
encoding).  `hashIP` (a salted SHA-256 truncation), `extractDomain`
(`net/url` host extraction) and the optional GeoIP lookup are environment
parameters: the aggregation structure never inspects their values. -/

/-- Key of the `requests` buffer and table. -/
structure requestKey where
  Hour : Int
  Router : List Char
  Path : List Char
  Method : List Char
  Status : Int
deriving DecidableEq, Repr

/-- Accumulated value of one `requests` row. -/
structure requestVal where
  Count : Int
  Bytes : Int
  Duration : Int
deriving DecidableEq, Repr

/-- Key of the `visitors` buffer and table. -/
structure visitorKey where
  Hour : Int
  Router : List Char
  IPHash : List Char
deriving DecidableEq, Repr

/-- Key of the `referrers` buffer and table. -/
structure referrerKey where
  Hour : Int
  Router : List Char
  Referrer : List Char
deriving DecidableEq, Repr

/-- Key of the `user_agents` buffer and table. -/
structure userAgentKey where
  Hour : Int
  Router : List Char
  Category : List Char
deriving DecidableEq, Repr

/-- Key of the `countries` buffer and table. -/
structure countryKey where
  Hour : Int
  Router : List Char
  Country : List Char
deriving DecidableEq, Repr

/-- Key of the `browsers` buffer and table. -/
structure browserKey where
  Hour : Int
  Router : List Char
  Browser : List Char
deriving DecidableEq, Repr

/-- Key of the `os_stats` buffer and table. -/
structure osKey where
  Hour : Int
  Router : List Char
  OS : List Char
deriving DecidableEq, Repr

/-- Key of the `duration_hist` buffer and table. -/
structure durationHistKey where
  Hour : Int
  Router : List Char
  Bucket : List Char
deriving DecidableEq, Repr

/-- Model of `durationBucket`: histogram bucket label for a duration. -/
def durationBucket (ms : Int) : List Char :=
  if ms ≤ 10 then "0-10ms".toList
  else if ms ≤ 50 then "10-50ms".toList
  else if ms ≤ 100 then "50-100ms".toList
  else if ms ≤ 500 then "100-500ms".toList
  else if ms ≤ 1000 then "500-1000ms".toList
  else "1000+ms".toList

/-- Environment of one aggregator instance: the salted IP hash of this
process (`hashIP(·, salt)`), referrer host extraction (`extractDomain`), and
the optional GeoIP lookup (`nil` reader disables the `countries` table). -/
structure AggEnv where
  hashIP : List Char → List Char
  extractDomain : List Char → List Char
  geo : Option (List Char → List Char)

/-- Model of the aggregator's in-memory buffers. -/
structure AggBuffers where
  requests : requestKey → Option requestVal
  visitors : visitorKey → Bool
  referrers : referrerKey → Option Int
  userAgents : userAgentKey → Option Int
  countries : countryKey → Option Int
  browsers : browserKey → Option Int
  osStats : osKey → Option Int
  durationHist : durationHistKey → Option Int
  bufferSize : Nat

/-- Fresh empty buffers, as created by `New` and after every flush swap. -/
def emptyBuffers : AggBuffers :=
  ⟨fun _ => none, fun _ => false, fun _ => none, fun _ => none,
   fun _ => none, fun _ => none, fun _ => none, fun _ => none, 0⟩

/-- Go `m[k]++` on an int-valued map: a missing key is inserted with 1. -/
def bumpCount {K : Type} [DecidableEq K] (m : K → Option Int) (k : K) :
    K → Option Int :=
  fun q => if q = k then some ((m k).getD 0 + 1) else m q

/-- The `requests` update of `accumulate`: increment count and add bytes and
duration at an existing key, or insert `(1, bytes, duration)`. -/
def bumpRequest (m : requestKey → Option requestVal) (k : requestKey)
    (b d : Int) : requestKey → Option requestVal :=
  fun q => if q = k then
    match m k with
    | some v => some ⟨v.Count + 1, v.Bytes + b, v.Duration + d⟩
    | none => some ⟨1, b, d⟩
  else m q

/-- Marking a visitor key present (`a.visitors[visKey] = struct{}{}`). -/
def markVisitor (m : visitorKey → Bool) (k : visitorKey) : visitorKey → Bool :=
  fun q => if q = k then true else m q

/-- Router value used for every key of one entry: the `"unrouted"` sentinel
replaces an empty parsed router. -/
def routerOf (entry : LogEntry) : List Char :=
  if entry.Router == [] then "unrouted".toList else entry.Router

/-- The `requests` block of `accumulate`. -/
def updateRequests (entry : LogEntry) (m : requestKey → Option requestVal) :
    requestKey → Option requestVal :=
  bumpRequest m
    ⟨HourBucket entry.Timestamp, routerOf entry, entry.Path, entry.Method, entry.Status⟩
    entry.Bytes entry.DurationMs

/-- The `visitors` block of `accumulate`: only non-bot, routed traffic. -/
def updateVisitors (env : AggEnv) (entry : LogEntry) (m : visitorKey → Bool) :
    visitorKey → Bool :=
  if Classify entry == "human".toList then
    markVisitor m ⟨HourBucket entry.Timestamp, routerOf entry, env.hashIP entry.IP⟩
  else m

/-- The `referrers` block of `accumulate`: only nonempty referers whose
extracted host is nonempty. -/
def updateReferrers (env : AggEnv) (entry : LogEntry) (m : referrerKey → Option Int) :
    referrerKey → Option Int :=
  if entry.Referer == [] then m
  else if env.extractDomain entry.Referer == [] then m
  else bumpCount m
    ⟨HourBucket entry.Timestamp, routerOf entry, env.extractDomain entry.Referer⟩

/-- The `user_agents` block of `accumulate`. -/
def updateUserAgents (entry : LogEntry) (m : userAgentKey → Option Int) :
    userAgentKey → Option Int :=
  bumpCount m ⟨HourBucket entry.Timestamp, routerOf entry, ClassifyUA entry.UserAgent⟩

/-- The `countries` block of `accumulate`: only with a GeoIP reader and a
nonempty country code. -/
def updateCountries (env : AggEnv) (entry : LogEntry) (m : countryKey → Option Int) :
    countryKey → Option Int :=
  match env.geo with
  | none => m
  | some lookup =>
    if lookup entry.IP == [] then m
    else bumpCount m ⟨HourBucket entry.Timestamp, routerOf entry, lookup entry.IP⟩

/-- The `browsers` block of `accumulate`. -/
def updateBrowsers (entry : LogEntry) (m : browserKey → Option Int) :
    browserKey → Option Int :=
  bumpCount m ⟨HourBucket entry.Timestamp, routerOf entry, ClassifyBrowser entry.UserAgent⟩

/-- The `os_stats` block of `accumulate`. -/
def updateOsStats (entry : LogEntry) (m : osKey → Option Int) :
    osKey → Option Int :=
  bumpCount m ⟨HourBucket entry.Timestamp, routerOf entry, ClassifyOS entry.UserAgent⟩

/-- The `duration_hist` block of `accumulate`. -/
def updateDurationHist (entry : LogEntry) (m : durationHistKey → Option Int) :
    durationHistKey → Option Int :=
  bumpCount m ⟨HourBucket entry.Timestamp, routerOf entry, durationBucket entry.DurationMs⟩

/-- Model of `(*Aggregator).accumulate`: adds one parsed entry to the
in-memory buffers under the aggregator's mutex. -/
def accumulate (env : AggEnv) (entry : LogEntry) (a : AggBuffers) : AggBuffers :=
  { requests := updateRequests entry a.requests
    visitors := updateVisitors env entry a.visitors
    referrers := updateReferrers env entry a.referrers
    userAgents := updateUserAgents entry a.userAgents
    countries := updateCountries env entry a.countries
    browsers := updateBrowsers entry a.browsers
    osStats := updateOsStats entry a.osStats
    durationHist := updateDurationHist entry a.durationHist
    bufferSize := a.bufferSize + 1 }

/-- One line of the `Run` loop body applied to the buffers: parse with the
configured format, drop the line on parse error, otherwise accumulate. -/
def consumeLine (env : AggEnv) (fmt : Format) (a : AggBuffers)
    (line : List Char) : AggBuffers :=
  match ParseLine fmt line with
  | none => a
  | some entry => accumulate env entry a

/-- Model of the aggregate tables of the store, as upserted by `flush`. -/
structure AggDB where
  requests : requestKey → Option requestVal
  visitors : visitorKey → Bool
  referrers : referrerKey → Option Int
  userAgents : userAgentKey → Option Int
  countries : countryKey → Option Int
  browsers : browserKey → Option Int
  osStats : osKey → Option Int
  durationHist : durationHistKey → Option Int

/-- An empty store. -/
def emptyDB : AggDB :=
  ⟨fun _ => none, fun _ => false, fun _ => none, fun _ => none,
   fun _ => none, fun _ => none, fun _ => none, fun _ => none⟩

/-- Upsert of one count map into its table
(`ON CONFLICT … DO UPDATE SET count = count + excluded.count`). -/
def mergeCounts {K : Type} (table buf : K → Option Int) : K → Option Int :=
  fun k =>
    match buf k with
    | none => table k
    | some n => some ((table k).getD 0 + n)

/-- Upsert of the requests buffer into the requests table. -/
def mergeRequests (table buf : requestKey → Option requestVal) :
    requestKey → Option requestVal :=
  fun k =>
    match buf k with
    | none => table k
    | some v =>
      match table k with
      | none => some v
      | some w => some ⟨w.Count + v.Count, w.Bytes + v.Bytes, w.Duration + v.Duration⟩

/-- Effect of one committed flush transaction: every non-empty buffer map is
upserted into its table (visitors with `ON CONFLICT DO NOTHING`). -/
def applySnapshot (db : AggDB) (b : AggBuffers) : AggDB :=
  { requests := mergeRequests db.requests b.requests
    visitors := fun k => db.visitors k || b.visitors k
    referrers := mergeCounts db.referrers b.referrers
    userAgents := mergeCounts db.userAgents b.userAgents
    countries := mergeCounts db.countries b.countries
    browsers := mergeCounts db.browsers b.browsers
    osStats := mergeCounts db.osStats b.osStats
    durationHist := mergeCounts db.durationHist b.durationHist }

/-- State of one running aggregator: its buffers, the store contents, and
how many flush transactions have been attempted (index into the commit
oracle). -/
structure AggRunState where
  bufs : AggBuffers
  db : AggDB
  flushCount : Nat

/-- Model of `(*Aggregator).flush`: atomically swap the buffers for empty
ones; nothing to do when the snapshot is empty; otherwise one transaction
that commits all upserts, or is rolled back when the store fails
(`flushOk n` decides the n-th attempt).  In both cases the swapped-out
snapshot is gone; the second component is true iff `flush` returned an
error. -/
def flush (flushOk : Nat → Bool) (s : AggRunState) : AggRunState × Bool :=
  let snap := s.bufs
  if snap.bufferSize == 0 then ({ s with bufs := emptyBuffers }, false)
  else if flushOk s.flushCount then
    ({ bufs := emptyBuffers, db := applySnapshot s.db snap,
       flushCount := s.flushCount + 1 }, false)
  else
    ({ bufs := emptyBuffers, db := s.db, flushCount := s.flushCount + 1 }, true)

/-- Events selected on by the `Run` loop. -/
inductive AggEvent
  | cancelled
  | closed
  | tick
  | line (l : List Char)

/-- Outcome of one `Run` loop iteration. -/
inductive RunOutcome
  | continuing (s : AggRunState)
  | exitOk (s : AggRunState)
  | exitErr (s : AggRunState)

/-- Model of one iteration of `(*Aggregator).Run`: on cancellation or
channel close, flush once and exit (with the flush error, if any); on a
tick, flush and — when the flush fails — log and return the error; on a
line, parse (dropping parse failures), accumulate, and flush when the
buffer has reached 1000 entries. -/
def runEvent (env : AggEnv) (flushOk : Nat → Bool) (fmt : Format)
    (s : AggRunState) : AggEvent → RunOutcome
  | .cancelled =>
    let f := flush flushOk s
    if f.2 then .exitErr f.1 else .exitOk f.1
  | .closed =>
    let f := flush flushOk s
    if f.2 then .exitErr f.1 else .exitOk f.1
  | .tick =>
    let f := flush flushOk s
    if f.2 then .exitErr f.1 else .continuing f.1
  | .line l =>
    match ParseLine fmt l with
    | none => .continuing s
    | some entry =>
      let s1 := { s with bufs := accumulate env entry s.bufs }
      if s1.bufs.bufferSize ≥ 1000 then
        let f := flush flushOk s1
        if f.2 then .exitErr f.1 else .continuing f.1
      else .continuing s1

/-- The `Run` loop over a list of events: iterates until an iteration
exits; an exit outcome abandons the remaining events. -/
def runEvents (env : AggEnv) (flushOk : Nat → Bool) (fmt : Format) :
    AggRunState → List AggEvent → RunOutcome
  | s, [] => .continuing s
  | s, ev :: evs =>
    match runEvent env flushOk fmt s ev with
    | .continuing s1 => runEvents env flushOk fmt s1 evs
    | out => out

/-! ## Tailer (package `tailer`) -/

/-- Current state of the followed file at a poll tick: its inode and its
byte content (the size is the content length). -/
structure FileState where
  inode : Int
  content : List Char

/-- Model of the start-offset selection of `(*Tailer).processTick`:
a changed inode means rotation (start at 0); a size smaller than the saved
offset at the same inode means copytruncate (start at 0); otherwise resume
at the saved offset. -/
def tickStartOffset (savedOffset savedInode currentInode currentSize : Int) : Int :=
  if currentInode != savedInode then 0
  else if currentSize < savedOffset then 0
  else savedOffset

/-- Splits file bytes into scanner lines at newline characters. -/
def splitLinesAux : List Char → List Char → List (List Char)
  | [], acc => [acc.reverse]
  | c :: cs, acc =>
    if c == '\n' then acc.reverse :: splitLinesAux cs []
    else splitLinesAux cs (c :: acc)

/-- Lines produced by a `bufio.Scanner` over the bytes (with a trailing
newline the final empty token is dropped downstream as a blank line). -/
def splitLines (l : List Char) : List (List Char) :=
  splitLinesAux l []

/-- Model of the read phase of `(*Tailer).processTick`: choose the start
offset from the saved position and the statted identity; when the start
offset is at or past the current size, nothing is read; otherwise read from
the start offset to end of file, skipping blank lines.  (`_savedSize` is
loaded but, as in the source, not used by the algorithm.) -/
def tickReads (savedOffset savedInode _savedSize : Int) (file : FileState) :
    List (List Char) :=
  let currentSize : Int := file.content.length
  let start := tickStartOffset savedOffset savedInode file.inode currentSize
  if start ≥ currentSize then []
  else (splitLines (file.content.drop start.toNat)).filter (fun l => l != [])

/-! ## Backfill (package `backfill`)

The store is modelled by the `log_position` map (offset, inode, size per
file path) together with the list of lines delivered to the dedicated
backfill aggregator — the aggregate tables are content-derived from that
list, so double delivery is exactly double counting. -/

/-- One rotated sibling `base.N` / `base.N.gz`: its path, its stat size and
its decompressed lines. -/
structure RotatedFile where
  path : List Char
  size : Int
  lines : List (List Char)

/-- State of a backfill run: the `log_position` table and the lines
delivered downstream so far. -/
structure BackfillState where
  pos : List Char → Option (Int × Int × Int)
  agg : List (List Char)

/-- Model of `backfill.isImported`: a `log_position` row exists for the path
with `offset == size && size > 0`. -/
def isImported (pos : List Char → Option (Int × Int × Int))
    (path : List Char) : Bool :=
  match pos path with
  | none => false
  | some r => r.1 == r.2.2 && r.2.2 > 0

/-- Model of `backfill.markImported`: upsert
`log_position(path, size, 0, size)`. -/
def markImported (pos : List Char → Option (Int × Int × Int))
    (path : List Char) (size : Int) : List Char → Option (Int × Int × Int) :=
  fun p => if p = path then some (size, 0, size) else pos p

/-- Model of one pending-file step of `backfill.Run`: `processFile` streams
the file's non-blank lines to the dedicated aggregator, then the file is
marked imported at its stat size. -/
def backfillStep (s : BackfillState) (f : RotatedFile) : BackfillState :=
  { pos := markImported s.pos f.path f.size,
    agg := s.agg ++ f.lines.filter (fun l => l != []) }

/-- Model of `backfill.Run` under normal completion: filter out the files
already imported, then process each pending file in order and mark it
imported. -/
def backfillRun (s : BackfillState) (files : List RotatedFile) : BackfillState :=
  (files.filter (fun f => !isImported s.pos f.path)).foldl backfillStep s

/-! ## Retention (package `retention`)

Aggregate rows are modelled as (hour bucket, remaining columns) pairs; the
`DELETE … WHERE hour < cutoff` comparison on the formatted hour strings
coincides with the numeric comparison of the bucket instants. -/

/-- The nine tables of the store as row lists: eight time-bucketed aggregate
tables and `log_position`. -/
structure DBTables where
  requests : List (Int × List Char)
  visitors : List (Int × List Char)
  referrers : List (Int × List Char)
  userAgents : List (Int × List Char)
  countries : List (Int × List Char)
  browsers : List (Int × List Char)
  osStats : List (Int × List Char)
  durationHist : List (Int × List Char)
  logPosition : List (List Char × Int × Int × Int)

/-- Rows surviving `DELETE FROM t WHERE hour < cutoff`. -/
def sweepTable (cutoff : Int) (t : List (Int × List Char)) :
    List (Int × List Char) :=
  t.filter (fun r => !decide (r.1 < cutoff))

/-- Model of `(*Cleaner).cleanup`: compute
`cutoff = Truncate(now − retentionDays·24h, hour)` (on a UTC instant,
`AddDate(0, 0, -retentionDays)` subtracts exactly `retentionDays · 86400`
seconds) and, in one transaction, delete the rows older than the cutoff
from every time-bucketed aggregate table; `log_position` is not touched. -/
def cleanup (now : Int) (retentionDays : Int) (db : DBTables) : DBTables :=
  let cutoff := HourBucket (now - retentionDays * 86400)
  { requests := sweepTable cutoff db.requests
    visitors := sweepTable cutoff db.visitors
    referrers := sweepTable cutoff db.referrers
    userAgents := sweepTable cutoff db.userAgents
    countries := sweepTable cutoff db.countries
    browsers := sweepTable cutoff db.browsers
    osStats := sweepTable cutoff db.osStats
    durationHist := sweepTable cutoff db.durationHist
    logPosition := db.logPosition }

/-! ## Rendered log lines

To quantify over "well-formed lines whose FIELD is X", lines are rendered
from raw field values; the predicates below say that a field value cannot
escape its delimiters, which makes rendering and the regex field readers
mutually inverse. -/

/-- A `\S+` field: nonempty, without whitespace. -/
def plainField (s : List Char) : Prop :=
  s ≠ [] ∧ ∀ c ∈ s, isGoSpace c = false

/-- A `[^"]*` quoted field: without double quotes. -/
def quotedOk (s : List Char) : Prop :=
  ∀ c ∈ s, c ≠ '"'

/-- A `[^"]+` field: nonempty, without double quotes. -/
def protoOk (s : List Char) : Prop :=
  s ≠ [] ∧ ∀ c ∈ s, c ≠ '"'

/-- A `\d+` field: nonempty, all decimal digits. -/
def digitsOk (s : List Char) : Prop :=
  s ≠ [] ∧ ∀ c ∈ s, c.isDigit = true

/-- A `[^\]]+` timestamp field: nonempty, without closing brackets. -/
def tsOk (s : List Char) : Prop :=
  s ≠ [] ∧ ∀ c ∈ s, c ≠ ']'


instance (s : List Char) : Decidable (plainField s) := by
  unfold plainField
  infer_instance

instance (s : List Char) : Decidable (quotedOk s) := by
  unfold quotedOk
  infer_instance

instance (s : List Char) : Decidable (protoOk s) := by
  unfold protoOk
  infer_instance

instance (s : List Char) : Decidable (digitsOk s) := by
  unfold digitsOk
  infer_instance

instance (s : List Char) : Decidable (tsOk s) := by
  unfold tsOk
  infer_instance

/-- The head shared by both formats:
`IP IDENT USER [TS] "METHOD PATH PROTO" STATUS ` followed by the
format-specific rest. -/
def renderHead (ip ident usr ts method path proto statusS rest : List Char) :
    List Char :=
  ip ++ ' ' :: (ident ++ ' ' :: (usr ++ ' ' :: ('[' :: (ts ++ ']' :: ' ' ::
    ('"' :: (method ++ ' ' :: (path ++ ' ' :: (proto ++ '"' :: ' ' ::
    (statusS ++ ' ' :: rest)))))))))

/-- The Traefik-specific rest:
`BYTES "REF" "UA" REQNUM "ROUTER" "BACKEND" DURms`. -/
def renderTraefikTail (bytesS ref ua reqnum router backend durS : List Char) :
    List Char :=
  bytesS ++ ' ' :: ('"' :: (ref ++ '"' :: ' ' :: ('"' :: (ua ++ '"' :: ' ' ::
    (reqnum ++ ' ' :: ('"' :: (router ++ '"' :: ' ' :: ('"' :: (backend ++
    '"' :: ' ' :: (durS ++ 'm' :: 's' :: []))))))))))

/-- The Combined-specific rest: `BYTES "REF" "UA"` followed by a raw suffix
(empty, or whitespace and the request-time token). -/
def renderCombinedTail (bytesS ref ua suffix : List Char) : List Char :=
  bytesS ++ ' ' :: ('"' :: (ref ++ '"' :: ' ' :: ('"' :: (ua ++ '"' :: suffix))))

/-- Sample Traefik extended-CLF line (from the repository's tests). -/
def traefikSample : List Char :=
  "91.34.143.167 - admin [07/Jan/2026:16:17:08 +0000] \"GET /ws HTTP/1.1\" 404 555 \"-\" \"Mozilla/5.0\" 1 \"web@docker\" \"http://172.19.0.4:80\" 1ms".toList

/-- Sample Apache Combined line (from the repository's tests). -/
def combinedSample : List Char :=
  "192.168.1.1 - frank [10/Jan/2026:13:55:36 -0800] \"GET /index.html HTTP/1.1\" 200 2326 \"http://www.example.com/start.html\" \"Mozilla/5.0 (Windows NT 10.0; Win64; x64)\"".toList

/-- Traefik line whose bytes field is the literal dash (otherwise
well-formed). -/
def traefikDashLine : List Char :=
  "5.6.7.8 - - [10/Jan/2026:16:00:00 +0000] \"HEAD /health HTTP/1.1\" 304 - \"-\" \"x\" 1 \"r\" \"b\" 1ms".toList

/-- Combined line whose trailing request-time token is present but not a
number. -/
def combinedBadTimeLine : List Char :=
  "10.0.0.1 - - [10/Jan/2026:14:00:00 +0000] \"POST /api HTTP/1.1\" 201 512 \"-\" \"curl/7.68.0\" abc".toList

/-- Environment of the counterexample/witness aggregator instances: the
identity in place of the salted hash (its value is irrelevant), no referrer
extraction, no GeoIP reader. -/
def envA : AggEnv := ⟨fun s => s, fun _ => [], none⟩

/-- A parsed entry with a routed, non-bot request. -/
def entryHuman : LogEntry :=
  ⟨"1.2.3.4".toList, 0, "GET".toList, "/".toList, "HTTP/1.1".toList,
   200, 1, [], "XyzBrowser Edg/120.0".toList, "web@docker".toList, [], 1⟩

/-- Run state holding one accumulated entry over an empty store. -/
def stateOne : AggRunState := ⟨accumulate envA entryHuman emptyBuffers, emptyDB, 0⟩

/-- A parsed entry whose router is literally the sentinel string
"unrouted" and whose User-Agent is not a bot. -/
def entryUnroutedName : LogEntry :=
  ⟨"9.9.9.9".toList, 0, "GET".toList, "/".toList, "HTTP/1.1".toList,
   200, 0, [], "XyzBrowser Edg/120.0".toList, "unrouted".toList, [], 1⟩

/-- A rotated sibling with one line. -/
def bfile1 : RotatedFile := ⟨"/logs/access.log.1".toList, 2, ["ab".toList]⟩

/-- An empty backfill state. -/
def bstate0 : BackfillState := ⟨fun _ => none, []⟩

theorem takeWhileSplit_append {p : Char → Bool} {s : List Char} (d : Char)
    (rest : List Char) (hs : ∀ c ∈ s, p c = true) (hd : p d = false) :
    takeWhileSplit p (s ++ d :: rest) = (s, d :: rest) := by
  induction s with
  | nil => simp [takeWhileSplit, hd]
  | cons c cs ih =>
    have hc : p c = true := hs c (by simp)
    have ih2 := ih (fun x hx => hs x (by simp [hx]))
    simp [takeWhileSplit, hc, ih2]

theorem takeWhileSplit_all {p : Char → Bool} {s : List Char}
    (hs : ∀ c ∈ s, p c = true) :
    takeWhileSplit p s = (s, []) := by
  induction s with
  | nil => simp [takeWhileSplit]
  | cons c cs ih =>
    have hc : p c = true := hs c (by simp)
    have ih2 := ih (fun x hx => hs x (by simp [hx]))
    simp [takeWhileSplit, hc, ih2]

theorem expectChar_cons_self (c : Char) (l : List Char) :
    expectChar c (c :: l) = some l := by
  simp [expectChar]

theorem pSpanNonSpace_render {s : List Char} (rest : List Char)
    (h : plainField s) :
    pSpanNonSpace (s ++ ' ' :: rest) = some (s, ' ' :: rest) := by
  obtain ⟨hne, hns⟩ := h
  have hsplit := @takeWhileSplit_append (fun c => !isGoSpace c) s ' ' rest
    (fun c hc => by simp [hns c hc]) (by decide)
  unfold pSpanNonSpace
  rw [hsplit]
  cases s with
  | nil => exact absurd rfl hne
  | cons c cs => rfl

theorem pField_render {s : List Char} (rest : List Char) (h : plainField s) :
    pField (s ++ ' ' :: rest) = some (s, rest) := by
  unfold pField
  rw [pSpanNonSpace_render rest h]
  simp [expectChar]

theorem pDigits_render {s : List Char} (d : Char) (rest : List Char)
    (hs : digitsOk s) (hd : d.isDigit = false) :
    pDigits (s ++ d :: rest) = some (s, d :: rest) := by
  obtain ⟨hne, hdig⟩ := hs
  have hsplit := @takeWhileSplit_append Char.isDigit s d rest hdig hd
  unfold pDigits
  rw [hsplit]
  cases s with
  | nil => exact absurd rfl hne
  | cons c cs => rfl

theorem pDigitsSp_render {s : List Char} (rest : List Char) (hs : digitsOk s) :
    pDigitsSp (s ++ ' ' :: rest) = some (s, rest) := by
  unfold pDigitsSp
  rw [pDigits_render ' ' rest hs (by decide)]
  simp [expectChar]

theorem pQuoted_render {s : List Char} (rest : List Char) (h : quotedOk s) :
    pQuoted ('"' :: (s ++ '"' :: rest)) = some (s, rest) := by
  have hsplit := @takeWhileSplit_append (fun c => c != '"') s '"' rest
    (fun c hc => by simp [h c hc]) (by decide)
  unfold pQuoted
  simp only [expectChar_cons_self, Option.bind_eq_bind, Option.some_bind]
  rw [hsplit]
  simp [expectChar]

theorem pQuotedSp_render {s : List Char} (rest : List Char) (h : quotedOk s) :
    pQuotedSp ('"' :: (s ++ '"' :: ' ' :: rest)) = some (s, rest) := by
  unfold pQuotedSp
  rw [pQuoted_render (' ' :: rest) h]
  simp [expectChar]

theorem pBracket_render {s : List Char} (rest : List Char) (h : tsOk s) :
    pBracket ('[' :: (s ++ ']' :: rest)) = some (s, rest) := by
  obtain ⟨hne, hbr⟩ := h
  have hsplit := @takeWhileSplit_append (fun c => c != ']') s ']' rest
    (fun c hc => by simp [hbr c hc]) (by decide)
  unfold pBracket
  simp only [expectChar_cons_self, Option.bind_eq_bind, Option.some_bind]
  rw [hsplit]
  cases s with
  | nil => exact absurd rfl hne
  | cons c cs => simp [expectChar]

theorem pRequest_render {m p proto : List Char} (rest : List Char)
    (hm : plainField m) (hp : plainField p) (hq : protoOk proto) :
    pRequest ('"' :: (m ++ ' ' :: (p ++ ' ' :: (proto ++ '"' :: ' ' :: rest)))) =
      some ((m, p, proto), rest) := by
  obtain ⟨hqne, hqc⟩ := hq
  have hsplit := @takeWhileSplit_append (fun c => c != '"') proto '"' (' ' :: rest)
    (fun c hc => by simp [hqc c hc]) (by decide)
  unfold pRequest
  simp only [expectChar_cons_self, Option.bind_eq_bind, Option.some_bind]
  rw [pSpanNonSpace_render _ hm]
  simp only [Option.some_bind, expectChar_cons_self]
  rw [pSpanNonSpace_render _ hp]
  simp only [Option.some_bind, expectChar_cons_self]
  rw [hsplit]
  cases proto with
  | nil => exact absurd rfl hqne
  | cons c cs => simp [expectChar]

theorem pHead_render {ip ident usr ts method path proto statusS : List Char}
    (rest : List Char) (h1 : plainField ip) (h2 : plainField ident)
    (h3 : plainField usr) (h4 : tsOk ts) (h5 : plainField method)
    (h6 : plainField path) (h7 : protoOk proto) (h8 : digitsOk statusS) :
    pHead (renderHead ip ident usr ts method path proto statusS rest) =
      some (⟨ip, ts, method, path, proto, statusS⟩, rest) := by
  unfold pHead renderHead
  rw [pField_render _ h1]
  simp only [Option.bind_eq_bind, Option.some_bind]
  rw [pField_render _ h2]
  simp only [Option.some_bind]
  rw [pField_render _ h3]
  simp only [Option.some_bind]
  rw [pBracket_render _ h4]
  simp only [Option.some_bind, expectChar_cons_self]
  rw [pRequest_render _ h5 h6 h7]
  simp only [Option.some_bind]
  rw [pDigitsSp_render _ h8]
  simp only [Option.some_bind]
  rfl

theorem pTraefikTail_render {bytesS ref ua reqnum router backend durS : List Char}
    (hb : digitsOk bytesS) (hr : quotedOk ref) (hu : quotedOk ua)
    (hn : digitsOk reqnum) (ho : quotedOk router) (hk : quotedOk backend)
    (hd : digitsOk durS) :
    pTraefikTail (renderTraefikTail bytesS ref ua reqnum router backend durS) =
      some ⟨bytesS, ref, ua, router, backend, durS⟩ := by
  unfold pTraefikTail renderTraefikTail
  rw [pDigitsSp_render _ hb]
  simp only [Option.bind_eq_bind, Option.some_bind]
  rw [pQuotedSp_render _ hr]
  simp only [Option.some_bind]
  rw [pQuotedSp_render _ hu]
  simp only [Option.some_bind]
  rw [pDigitsSp_render _ hn]
  simp only [Option.some_bind]
  rw [pQuotedSp_render _ ho]
  simp only [Option.some_bind]
  rw [pQuotedSp_render _ hk]
  simp only [Option.some_bind]
  rw [pDigits_render 'm' ('s' :: []) hd (by decide)]
  simp only [Option.some_bind, expectChar_cons_self]
  rfl

theorem optRequestTimeToken_nil : optRequestTimeToken [] = [] := by
  simp [optRequestTimeToken, takeWhileSplit]

theorem optRequestTimeToken_token {token : List Char} (hne : token ≠ [])
    (hp : ∀ c ∈ token, isGoSpace c = false) :
    optRequestTimeToken (' ' :: token) = token := by
  unfold optRequestTimeToken
  have h1 : takeWhileSplit isGoSpace (' ' :: token) = ([' '], token) := by
    cases token with
    | nil => exact absurd rfl hne
    | cons c cs =>
      have hc : isGoSpace c = false := hp c (by simp)
      simp [takeWhileSplit, hc, show isGoSpace ' ' = true from by decide]
  rw [h1]
  simp only []
  have h2 := @takeWhileSplit_all (fun c => !isGoSpace c) token
    (fun c hc => by simp [hp c hc])
  simp [h2]

theorem pCombinedTail_render_dash {ref ua : List Char}
    (hr : quotedOk ref) (hu : quotedOk ua) :
    pCombinedTail (renderCombinedTail ['-'] ref ua []) =
      some ⟨['-'], ref, ua, []⟩ := by
  unfold pCombinedTail renderCombinedTail pBytesDashOr
  simp only [List.cons_append, List.nil_append]
  rw [show takeWhileSplit Char.isDigit
      ('-' :: ' ' :: ('"' :: (ref ++ '"' :: ' ' :: ('"' :: (ua ++ '"' :: []))))) =
      ([], '-' :: ' ' :: ('"' :: (ref ++ '"' :: ' ' :: ('"' :: (ua ++ '"' :: []))))) from by
    simp [takeWhileSplit]]
  simp only [Option.bind_eq_bind, Option.some_bind, expectChar_cons_self]
  rw [pQuotedSp_render _ hr]
  simp only [Option.some_bind]
  rw [pQuoted_render [] hu]
  simp only [Option.some_bind, optRequestTimeToken_nil]
  rfl

theorem pCombinedTail_render_token {bytesS ref ua token : List Char}
    (hb : digitsOk bytesS) (hr : quotedOk ref) (hu : quotedOk ua)
    (htne : token ≠ []) (htp : ∀ c ∈ token, isGoSpace c = false) :
    pCombinedTail (renderCombinedTail bytesS ref ua (' ' :: token)) =
      some ⟨bytesS, ref, ua, token⟩ := by
  unfold pCombinedTail renderCombinedTail pBytesDashOr
  rw [@takeWhileSplit_append Char.isDigit bytesS ' ' _ hb.2 (by decide)]
  cases hbs : bytesS with
  | nil => exact absurd hbs hb.1
  | cons c cs =>
    simp only [Option.bind_eq_bind, Option.some_bind, expectChar_cons_self]
    rw [pQuotedSp_render _ hr]
    simp only [Option.some_bind]
    rw [pQuoted_render (' ' :: token) hu]
    simp only [Option.some_bind, optRequestTimeToken_token htne htp]
    rw [← hbs]
    rfl

theorem pDigits_head_fail {c : Char} (l : List Char) (h : c.isDigit = false) :
    pDigits (c :: l) = none := by
  simp [pDigits, takeWhileSplit, h]

theorem pTraefikTail_dash {ref ua reqnum router backend durS : List Char} :
    pTraefikTail (renderTraefikTail ['-'] ref ua reqnum router backend durS) =
      none := by
  unfold pTraefikTail renderTraefikTail pDigitsSp
  simp only [List.cons_append, List.nil_append]
  rw [pDigits_head_fail _ (by decide)]
  rfl

theorem ParseTraefik_render_dash {ip ident usr ts method path proto statusS
    ref ua reqnum router backend durS : List Char}
    (h1 : plainField ip) (h2 : plainField ident) (h3 : plainField usr)
    (h4 : tsOk ts) (h5 : plainField method) (h6 : plainField path)
    (h7 : protoOk proto) (h8 : digitsOk statusS) :
    ParseTraefik (renderHead ip ident usr ts method path proto statusS
      (renderTraefikTail ['-'] ref ua reqnum router backend durS)) = none := by
  unfold ParseTraefik
  rw [pHead_render _ h1 h2 h3 h4 h5 h6 h7 h8]
  simp only [Option.bind_eq_bind, Option.some_bind]
  rw [pTraefikTail_dash]
  rfl

theorem ParseCombined_render_dash {ip ident usr ts method path proto statusS
    ref ua : List Char} {t : Int}
    (h1 : plainField ip) (h2 : plainField ident) (h3 : plainField usr)
    (h4 : tsOk ts) (h5 : plainField method) (h6 : plainField path)
    (h7 : protoOk proto) (h8 : digitsOk statusS)
    (hts : parseClfTimestamp ts = some t)
    (hs64 : digitsToNat statusS ≤ maxInt64)
    (hr : quotedOk ref) (hu : quotedOk ua) :
    ParseCombined (renderHead ip ident usr ts method path proto statusS
      (renderCombinedTail ['-'] ref ua [])) =
      some { IP := ip, Timestamp := t, Method := method, Path := path,
             Protocol := proto, Status := (digitsToNat statusS : Int),
             Bytes := 0, Referer := unquote ref, UserAgent := unquote ua,
             Router := "server".toList, Backend := [], DurationMs := 0 } := by
  unfold ParseCombined
  rw [pHead_render _ h1 h2 h3 h4 h5 h6 h7 h8]
  simp only [Option.bind_eq_bind, Option.some_bind]
  rw [pCombinedTail_render_dash hr hu]
  simp only [Option.some_bind]
  rw [hts]
  simp only [Option.some_bind]
  rw [show goAtoiDigits statusS = some (digitsToNat statusS : Int) from by
    simp [goAtoiDigits, hs64]]
  simp only [Option.some_bind]
  rfl

theorem ParseTraefik_render_eval {ip ident usr ts method path proto statusS
    bytesS ref ua reqnum router backend durS : List Char} {t : Int}
    (h1 : plainField ip) (h2 : plainField ident) (h3 : plainField usr)
    (h4 : tsOk ts) (h5 : plainField method) (h6 : plainField path)
    (h7 : protoOk proto) (h8 : digitsOk statusS)
    (hb : digitsOk bytesS) (hr : quotedOk ref) (hu : quotedOk ua)
    (hn : digitsOk reqnum) (ho : quotedOk router) (hk : quotedOk backend)
    (hd : digitsOk durS)
    (hts : parseClfTimestamp ts = some t) :
    ParseTraefik (renderHead ip ident usr ts method path proto statusS
      (renderTraefikTail bytesS ref ua reqnum router backend durS)) =
      (goAtoiDigits statusS).bind fun status =>
      (goAtoiDigits bytesS).bind fun bytes =>
      (goAtoiDigits durS).bind fun dur =>
      some { IP := ip, Timestamp := t, Method := method, Path := path,
             Protocol := proto, Status := status, Bytes := bytes,
             Referer := unquote ref, UserAgent := unquote ua,
             Router := unquote router, Backend := unquote backend,
             DurationMs := dur } := by
  unfold ParseTraefik
  rw [pHead_render _ h1 h2 h3 h4 h5 h6 h7 h8]
  simp only [Option.bind_eq_bind, Option.some_bind]
  rw [pTraefikTail_render hb hr hu hn ho hk hd]
  simp only [Option.some_bind]
  rw [hts]
  simp only [Option.some_bind]
  rfl

theorem ParseCombined_render_eval {ip ident usr ts method path proto statusS
    bytesS ref ua token : List Char} {t : Int}
    (h1 : plainField ip) (h2 : plainField ident) (h3 : plainField usr)
    (h4 : tsOk ts) (h5 : plainField method) (h6 : plainField path)
    (h7 : protoOk proto) (h8 : digitsOk statusS)
    (hb : digitsOk bytesS) (hr : quotedOk ref) (hu : quotedOk ua)
    (htne : token ≠ []) (htp : ∀ c ∈ token, isGoSpace c = false)
    (hts : parseClfTimestamp ts = some t) :
    ParseCombined (renderHead ip ident usr ts method path proto statusS
      (renderCombinedTail bytesS ref ua (' ' :: token))) =
      (goAtoiDigits statusS).bind fun status =>
      ((if bytesS == ['-'] then some (0 : Int) else goAtoiDigits bytesS)).bind fun bytes =>
      some { IP := ip, Timestamp := t, Method := method, Path := path,
             Protocol := proto, Status := status, Bytes := bytes,
             Referer := unquote ref, UserAgent := unquote ua,
             Router := "server".toList, Backend := [],
             DurationMs :=
               match parseGoFloat token with
               | some q => goMathRound (q * 1000)
               | none => 0 } := by
  unfold ParseCombined
  rw [pHead_render _ h1 h2 h3 h4 h5 h6 h7 h8]
  simp only [Option.bind_eq_bind, Option.some_bind]
  rw [pCombinedTail_render_token hb hr hu htne htp]
  simp only [Option.some_bind]
  rw [hts]
  simp only [Option.some_bind]
  cases token with
  | nil => exact absurd rfl htne
  | cons c cs => rfl

theorem takeWhileSplit_snd_ne_nil {p : Char → Bool} {s : List Char} {c : Char}
    (hc : c ∈ s) (hpc : p c = false) : (takeWhileSplit p s).2 ≠ [] := by
  induction s with
  | nil => cases hc
  | cons a as ih =>
    by_cases hpa : p a = true
    · simp only [takeWhileSplit, hpa, if_true]
      rcases List.mem_cons.1 hc with hca | hca
      · subst hca
        rw [hpa] at hpc
        cases hpc
      · exact ih hca
    · simp only [takeWhileSplit, eq_false_of_ne_true hpa, if_false]
      simp

theorem takeWhileSplit_append_left {p : Char → Bool} {s : List Char}
    (l : List Char) (h : (takeWhileSplit p s).2 ≠ []) :
    takeWhileSplit p (s ++ l) =
      ((takeWhileSplit p s).1, (takeWhileSplit p s).2 ++ l) := by
  induction s with
  | nil => exact absurd rfl h
  | cons a as ih =>
    by_cases hpa : p a = true
    · have h2 : (takeWhileSplit p as).2 ≠ [] := by
        intro hnil
        apply h
        simp [takeWhileSplit, hpa, hnil]
      simp [takeWhileSplit, hpa, ih h2]
    · simp [takeWhileSplit, eq_false_of_ne_true hpa]

theorem takeWhileSplit_snd_head {p : Char → Bool} {s : List Char}
    (h : (takeWhileSplit p s).2 ≠ []) :
    ∃ d ds, (takeWhileSplit p s).2 = d :: ds ∧ p d = false ∧ d ∈ s := by
  induction s with
  | nil => exact absurd rfl h
  | cons a as ih =>
    by_cases hpa : p a = true
    · have h2 : (takeWhileSplit p as).2 ≠ [] := by
        intro hnil
        apply h
        simp [takeWhileSplit, hpa, hnil]
      obtain ⟨d, ds, hdd, hpd, hmem⟩ := ih h2
      refine ⟨d, ds, ?_, hpd, by simp [hmem]⟩
      simp [takeWhileSplit, hpa, hdd]
    · refine ⟨a, as, ?_, eq_false_of_ne_true hpa, by simp⟩
      simp [takeWhileSplit, eq_false_of_ne_true hpa]

theorem pDigitsSp_fail {s : List Char} (rest : List Char)
    (hplain : ∀ c ∈ s, isGoSpace c = false)
    {c : Char} (hc : c ∈ s) (hcd : c.isDigit = false) :
    pDigitsSp (s ++ ' ' :: rest) = none := by
  have hne := takeWhileSplit_snd_ne_nil hc hcd
  obtain ⟨d, ds, hsnd, hpd, hdmem⟩ := takeWhileSplit_snd_head hne
  have hsplit := takeWhileSplit_append_left (' ' :: rest) hne
  have hdnesp : d ≠ ' ' := by
    intro hde
    subst hde
    have hds := hplain ' ' hdmem
    simp [isGoSpace] at hds
  have hd_ne : (d == ' ') = false := by
    simpa using hdnesp
  unfold pDigitsSp pDigits
  rw [hsplit, hsnd]
  cases hfst : (takeWhileSplit Char.isDigit s).1 with
  | nil => rfl
  | cons a as =>
    simp [expectChar, hd_ne, hdnesp]

theorem ParseTraefik_pHead_none {line : List Char} (h : pHead line = none) :
    ParseTraefik line = none := by
  unfold ParseTraefik
  rw [h]
  rfl

theorem ParseCombined_pHead_none {line : List Char} (h : pHead line = none) :
    ParseCombined line = none := by
  unfold ParseCombined
  rw [h]
  rfl

theorem pHead_fail_status {ip ident usr ts method path proto statusS : List Char}
    (rest : List Char) (h1 : plainField ip) (h2 : plainField ident)
    (h3 : plainField usr) (h4 : tsOk ts) (h5 : plainField method)
    (h6 : plainField path) (h7 : protoOk proto)
    (hplain : ∀ c ∈ statusS, isGoSpace c = false)
    {c : Char} (hc : c ∈ statusS) (hcd : c.isDigit = false) :
    pHead (renderHead ip ident usr ts method path proto statusS rest) = none := by
  unfold pHead renderHead
  rw [pField_render _ h1]
  simp only [Option.bind_eq_bind, Option.some_bind]
  rw [pField_render _ h2]
  simp only [Option.some_bind]
  rw [pField_render _ h3]
  simp only [Option.some_bind]
  rw [pBracket_render _ h4]
  simp only [Option.some_bind, expectChar_cons_self]
  rw [pRequest_render _ h5 h6 h7]
  simp only [Option.some_bind]
  rw [pDigitsSp_fail rest hplain hc hcd]
  rfl

theorem bumpCount_comm {K : Type} [DecidableEq K] (m : K → Option Int)
    (k1 k2 : K) :
    bumpCount (bumpCount m k1) k2 = bumpCount (bumpCount m k2) k1 := by
  funext q
  by_cases h12 : k1 = k2
  · subst h12
    rfl
  · unfold bumpCount
    by_cases hq1 : q = k1 <;> by_cases hq2 : q = k2 <;>
      simp [hq1, hq2, h12, Ne.symm h12]

theorem bumpRequest_comm (m : requestKey → Option requestVal)
    (k1 : requestKey) (b1 d1 : Int) (k2 : requestKey) (b2 d2 : Int) :
    bumpRequest (bumpRequest m k1 b1 d1) k2 b2 d2 =
      bumpRequest (bumpRequest m k2 b2 d2) k1 b1 d1 := by
  funext q
  by_cases h12 : k1 = k2
  · subst h12
    unfold bumpRequest
    by_cases hq : q = k1
    · subst hq
      cases m q <;> simp <;> constructor <;> omega
    · simp [hq]
  · unfold bumpRequest
    by_cases hq1 : q = k1 <;> by_cases hq2 : q = k2 <;>
      simp [hq1, hq2, h12, Ne.symm h12]

theorem markVisitor_comm (m : visitorKey → Bool) (k1 k2 : visitorKey) :
    markVisitor (markVisitor m k1) k2 = markVisitor (markVisitor m k2) k1 := by
  funext q
  unfold markVisitor
  by_cases hq1 : q = k1 <;> by_cases hq2 : q = k2 <;> simp [hq1, hq2]

theorem updateRequests_comm (a b : LogEntry) (m : requestKey → Option requestVal) :
    updateRequests a (updateRequests b m) = updateRequests b (updateRequests a m) := by
  unfold updateRequests
  exact bumpRequest_comm m _ _ _ _ _ _

theorem updateVisitors_comm (env : AggEnv) (a b : LogEntry) (m : visitorKey → Bool) :
    updateVisitors env a (updateVisitors env b m) =
      updateVisitors env b (updateVisitors env a m) := by
  unfold updateVisitors
  split_ifs <;> first
    | rfl
    | exact markVisitor_comm m _ _

theorem updateReferrers_comm (env : AggEnv) (a b : LogEntry)
    (m : referrerKey → Option Int) :
    updateReferrers env a (updateReferrers env b m) =
      updateReferrers env b (updateReferrers env a m) := by
  unfold updateReferrers
  split_ifs <;> first
    | rfl
    | exact bumpCount_comm m _ _

theorem updateUserAgents_comm (a b : LogEntry) (m : userAgentKey → Option Int) :
    updateUserAgents a (updateUserAgents b m) =
      updateUserAgents b (updateUserAgents a m) := by
  unfold updateUserAgents
  exact bumpCount_comm m _ _

theorem updateCountries_comm (env : AggEnv) (a b : LogEntry)
    (m : countryKey → Option Int) :
    updateCountries env a (updateCountries env b m) =
      updateCountries env b (updateCountries env a m) := by
  unfold updateCountries
  cases env.geo with
  | none => rfl
  | some lookup =>
    dsimp only
    split_ifs <;> first
      | rfl
      | exact bumpCount_comm m _ _

theorem updateBrowsers_comm (a b : LogEntry) (m : browserKey → Option Int) :
    updateBrowsers a (updateBrowsers b m) =
      updateBrowsers b (updateBrowsers a m) := by
  unfold updateBrowsers
  exact bumpCount_comm m _ _

theorem updateOsStats_comm (a b : LogEntry) (m : osKey → Option Int) :
    updateOsStats a (updateOsStats b m) = updateOsStats b (updateOsStats a m) := by
  unfold updateOsStats
  exact bumpCount_comm m _ _

theorem updateDurationHist_comm (a b : LogEntry) (m : durationHistKey → Option Int) :
    updateDurationHist a (updateDurationHist b m) =
      updateDurationHist b (updateDurationHist a m) := by
  unfold updateDurationHist
  exact bumpCount_comm m _ _

theorem accumulate_comm (env : AggEnv) (a b : LogEntry) (st : AggBuffers) :
    accumulate env a (accumulate env b st) = accumulate env b (accumulate env a st) := by
  unfold accumulate
  simp only [AggBuffers.mk.injEq]
  exact ⟨updateRequests_comm a b st.requests, updateVisitors_comm env a b st.visitors,
    updateReferrers_comm env a b st.referrers, updateUserAgents_comm a b st.userAgents,
    updateCountries_comm env a b st.countries, updateBrowsers_comm a b st.browsers,
    updateOsStats_comm a b st.osStats, updateDurationHist_comm a b st.durationHist, trivial⟩

theorem consumeLine_comm (env : AggEnv) (fmt : Format) (st : AggBuffers)
    (x y : List Char) :
    consumeLine env fmt (consumeLine env fmt st x) y =
      consumeLine env fmt (consumeLine env fmt st y) x := by
  unfold consumeLine
  cases ParseLine fmt x with
  | none => rfl
  | some ex =>
    cases ParseLine fmt y with
    | none => rfl
    | some ey => exact accumulate_comm env ey ex st

theorem count_sweepTable (cutoff : Int) (r : Int × List Char) :
    ∀ t : List (Int × List Char),
      List.count r (sweepTable cutoff t) =
        if r.1 < cutoff then 0 else List.count r t
  | [] => by simp [sweepTable]
  | a :: t => by
    have ih := count_sweepTable cutoff r t
    by_cases ha : a.1 < cutoff
    · have hstep : sweepTable cutoff (a :: t) = sweepTable cutoff t := by
        simp [sweepTable, List.filter_cons, ha]
      rw [hstep, ih]
      by_cases hra : r = a
      · subst hra
        simp [ha]
      · by_cases hrc : r.1 < cutoff
        · simp [hrc]
        · simp [hrc, List.count_cons, hra]
    · have hstep : sweepTable cutoff (a :: t) = a :: sweepTable cutoff t := by
        simp [sweepTable, List.filter_cons, ha]
      rw [hstep]
      by_cases hra : r = a
      · subst hra
        simp [ha, List.count_cons, ih]
      · by_cases hrc : r.1 < cutoff
        · simp [List.count_cons, hrc, ih, hra]
        · simp [List.count_cons, hrc, ih, hra]

theorem isImported_congr {pos1 pos2 : List Char → Option (Int × Int × Int)}
    {path : List Char} (h : pos1 path = pos2 path) :
    isImported pos1 path = isImported pos2 path := by
  unfold isImported
  rw [h]

theorem foldl_backfillStep_pos_not_mem (fs : List RotatedFile) (s : BackfillState)
    (path : List Char) (h : path ∉ fs.map (fun f => f.path)) :
    (fs.foldl backfillStep s).pos path = s.pos path := by
  induction fs generalizing s with
  | nil => rfl
  | cons f fs ih =>
    have h1 : path ≠ f.path := by
      intro he
      exact h (by simp [he])
    have h2 : path ∉ fs.map (fun f => f.path) := by
      intro hm
      exact h (by simp [hm])
    rw [List.foldl_cons, ih _ h2]
    simp [backfillStep, markImported, h1]

theorem foldl_backfillStep_imported (fs : List RotatedFile) (s : BackfillState)
    (hnd : (fs.map (fun f => f.path)).Nodup) (hsz : ∀ f ∈ fs, 0 < f.size) :
    ∀ f ∈ fs, isImported ((fs.foldl backfillStep s).pos) f.path = true := by
  induction fs generalizing s with
  | nil => intro f hf; cases hf
  | cons g gs ih =>
    intro f hf
    rcases List.mem_cons.1 hf with hfg | hfg
    · subst hfg
      have hnotin : f.path ∉ gs.map (fun x => x.path) := by
        have := List.nodup_cons.1 hnd
        simpa using this.1
      rw [List.foldl_cons]
      have hp := foldl_backfillStep_pos_not_mem gs (backfillStep s f) f.path hnotin
      have hpos : 0 < f.size := hsz f (by simp)
      unfold isImported
      rw [hp]
      simp [backfillStep, markImported, hpos]
    · have hnd2 : (gs.map (fun x => x.path)).Nodup := (List.nodup_cons.1 hnd).2
      have hsz2 : ∀ x ∈ gs, 0 < x.size := fun x hx => hsz x (by simp [hx])
      rw [List.foldl_cons]
      exact ih (backfillStep s g) hnd2 hsz2 f hfg

theorem foldl_backfillStep_agg (fs : List RotatedFile) (s : BackfillState) :
    (fs.foldl backfillStep s).agg =
      s.agg ++ (fs.map (fun f => f.lines.filter (fun l => l != []))).flatten := by
  induction fs generalizing s with
  | nil => simp
  | cons f fs ih =>
    rw [List.foldl_cons, ih]
    simp [backfillStep, List.append_assoc]

/-- C1: at every tailer poll tick the start offset is 0 when the current
inode differs from the saved inode (rotation detected), 0 when the current
size is smaller than the saved offset at an unchanged inode (copytruncate
detected), and the saved offset otherwise; and when the chosen start offset
is at or past the current size, nothing is read that tick. -/
theorem C1_tailer_tick_start_offset
    (savedOffset savedInode savedSize : Int) (file : FileState) :
    (file.inode ≠ savedInode →
      tickStartOffset savedOffset savedInode file.inode (file.content.length : Int) = 0) ∧
    (file.inode = savedInode → (file.content.length : Int) < savedOffset →
      tickStartOffset savedOffset savedInode file.inode (file.content.length : Int) = 0) ∧
    (file.inode = savedInode → ¬((file.content.length : Int) < savedOffset) →
      tickStartOffset savedOffset savedInode file.inode (file.content.length : Int) =
        savedOffset) ∧
    (tickStartOffset savedOffset savedInode file.inode (file.content.length : Int) ≥
        (file.content.length : Int) →
      tickReads savedOffset savedInode savedSize file = []) := by
  refine ⟨?_, ?_, ?_, ?_⟩
  · intro h
    simp [tickStartOffset, bne_iff_ne, h]
  · intro he hlt
    simp [tickStartOffset, he, hlt]
  · intro he hge
    simp [tickStartOffset, he, hge]
  · intro hge
    simp [tickReads, hge]

/-- Witness for C1 at concrete positions and file states. -/
theorem C1_tailer_tick_start_offset_witness :
    tickStartOffset 5 1 2 3 = 0 ∧ tickStartOffset 5 1 1 3 = 0 ∧
    tickStartOffset 2 1 1 3 = 2 ∧ tickReads 3 1 3 ⟨1, "abc".toList⟩ = [] := by
  refine ⟨?_, ?_, ?_, ?_⟩
  · exact (C1_tailer_tick_start_offset 5 1 5 ⟨2, "abc".toList⟩).1 (by decide)
  · exact (C1_tailer_tick_start_offset 5 1 5 ⟨1, "abc".toList⟩).2.1 rfl (by decide)
  · exact (C1_tailer_tick_start_offset 2 1 5 ⟨1, "abc".toList⟩).2.2.1 rfl (by decide)
  · exact (C1_tailer_tick_start_offset 3 1 3 ⟨1, "abc".toList⟩).2.2.2 (by decide)

/-- C7: a retention sweep at wall time `now` with `retention_days = D`
deletes, in one transaction, exactly the rows with
`hour < floor_to_hour_utc(now − D·24h)` from every time-bucketed aggregate
table (requests, visitors, referrers, user_agents, countries, browsers,
os_stats, duration_hist); rows at or after the cutoff keep their exact
multiplicity and the whole `log_position` table is left unchanged. -/
theorem C7_retention_sweep (now retentionDays : Int) (db : DBTables)
    (r : Int × List Char) :
    (List.count r (cleanup now retentionDays db).requests =
      if r.1 < HourBucket (now - retentionDays * 86400) then 0
      else List.count r db.requests) ∧
    (List.count r (cleanup now retentionDays db).visitors =
      if r.1 < HourBucket (now - retentionDays * 86400) then 0
      else List.count r db.visitors) ∧
    (List.count r (cleanup now retentionDays db).referrers =
      if r.1 < HourBucket (now - retentionDays * 86400) then 0
      else List.count r db.referrers) ∧
    (List.count r (cleanup now retentionDays db).userAgents =
      if r.1 < HourBucket (now - retentionDays * 86400) then 0
      else List.count r db.userAgents) ∧
    (List.count r (cleanup now retentionDays db).countries =
      if r.1 < HourBucket (now - retentionDays * 86400) then 0
      else List.count r db.countries) ∧
    (List.count r (cleanup now retentionDays db).browsers =
      if r.1 < HourBucket (now - retentionDays * 86400) then 0
      else List.count r db.browsers) ∧
    (List.count r (cleanup now retentionDays db).osStats =
      if r.1 < HourBucket (now - retentionDays * 86400) then 0
      else List.count r db.osStats) ∧
    (List.count r (cleanup now retentionDays db).durationHist =
      if r.1 < HourBucket (now - retentionDays * 86400) then 0
      else List.count r db.durationHist) ∧
    (cleanup now retentionDays db).logPosition = db.logPosition := by
  refine ⟨?_, ?_, ?_, ?_, ?_, ?_, ?_, ?_, rfl⟩ <;>
    exact count_sweepTable _ r _

/-- C10: when the parser's format is still `auto`, each line is parsed by
trying the Traefik grammar first and falling back to the Combined grammar on
failure; `ParseLine` never locks the format, so a mixed stream yields
records from both grammars (witnessed by the two sample lines). -/
theorem C10_auto_mode_fallback :
    (∀ line, (ParseTraefik line).isSome = true →
      ParseLine Format.auto line = ParseTraefik line) ∧
    (∀ line, ParseTraefik line = none →
      ParseLine Format.auto line = ParseCombined line) ∧
    ((ParseTraefik traefikSample).isSome = true ∧
      ParseTraefik combinedSample = none ∧
      (ParseCombined combinedSample).isSome = true) := by
  refine ⟨?_, ?_, by decide, by decide, by decide⟩
  · intro line h
    unfold ParseLine
    cases hp : ParseTraefik line with
    | none => rw [hp] at h; simp at h
    | some e => rfl
  · intro line h
    unfold ParseLine
    rw [h]
    cases ParseCombined line <;> rfl

/-- Witness for C10: the fallback equations applied to the two sample
lines. -/
theorem C10_auto_mode_fallback_witness :
    ParseLine Format.auto traefikSample = ParseTraefik traefikSample ∧
    ParseLine Format.auto combinedSample = ParseCombined combinedSample :=
  ⟨C10_auto_mode_fallback.1 traefikSample (by decide),
   C10_auto_mode_fallback.2.1 combinedSample (by decide)⟩

/-- C4 counterexample: an otherwise well-formed Traefik line whose bytes
field is the literal dash fails to parse — the Traefik regex reads bytes
with `(\d+)` — refuting the claim that in either format such a line parses
with bytes 0. -/
theorem C4_counterexample :
    ParseTraefik traefikDashLine = none ∧
    ParseLine Format.traefik traefikDashLine = none := by
  exact ⟨by decide, by decide⟩

/-- C4 (amended): an otherwise well-formed Combined-format line whose bytes
field is the literal dash parses successfully with `bytes = 0`; the
Traefik-format grammar rejects a dash bytes field, failing the whole
line. -/
theorem C4_bytes_dash (ip ident usr ts method path proto statusS ref ua
    reqnum router backend durS : List Char) (t : Int)
    (h1 : plainField ip) (h2 : plainField ident) (h3 : plainField usr)
    (h4 : tsOk ts) (h5 : plainField method) (h6 : plainField path)
    (h7 : protoOk proto) (h8 : digitsOk statusS)
    (hts : parseClfTimestamp ts = some t)
    (hs64 : digitsToNat statusS ≤ maxInt64)
    (hr : quotedOk ref) (hu : quotedOk ua) :
    (∃ e, ParseCombined (renderHead ip ident usr ts method path proto statusS
        (renderCombinedTail ['-'] ref ua [])) = some e ∧ e.Bytes = 0) ∧
    ParseTraefik (renderHead ip ident usr ts method path proto statusS
      (renderTraefikTail ['-'] ref ua reqnum router backend durS)) = none := by
  constructor
  · exact ⟨_, ParseCombined_render_dash h1 h2 h3 h4 h5 h6 h7 h8 hts hs64 hr hu, rfl⟩
  · exact ParseTraefik_render_dash h1 h2 h3 h4 h5 h6 h7 h8

/-- Witness for C4 at the concrete fields of the dash-bytes test line. -/
theorem C4_bytes_dash_witness :
    (ParseCombined (renderHead "5.6.7.8".toList ['-'] ['-']
        "10/Jan/2026:16:00:00 +0000".toList "HEAD".toList "/health".toList
        "HTTP/1.1".toList "304".toList
        (renderCombinedTail ['-'] ['-'] "health-checker/1.0".toList []))).map
      (fun e => e.Bytes) = some 0 ∧
    ParseTraefik (renderHead "5.6.7.8".toList ['-'] ['-']
      "10/Jan/2026:16:00:00 +0000".toList "HEAD".toList "/health".toList
      "HTTP/1.1".toList "304".toList
      (renderTraefikTail ['-'] ['-'] "x".toList "1".toList "r".toList
        "b".toList "1".toList)) = none := by
  have h := C4_bytes_dash "5.6.7.8".toList ['-'] ['-']
    "10/Jan/2026:16:00:00 +0000".toList "HEAD".toList "/health".toList
    "HTTP/1.1".toList "304".toList ['-'] "health-checker/1.0".toList
    "1".toList "r".toList "b".toList "1".toList 1768060800
    (by decide) (by decide) (by decide) (by decide) (by decide) (by decide)
    (by decide) (by decide) (by decide) (by decide) (by decide) (by decide)
  obtain ⟨⟨e, he, hb⟩, ht⟩ := h
  rw [he]
  exact ⟨by simp [hb], ht⟩

/-- C8 counterexample: a Combined-format line whose optional trailing
request-time token is present but unparseable parses successfully with
duration 0 — `ParseCombined` ignores the `ParseFloat` error — refuting the
claim that such a line fails to parse. -/
theorem C8_counterexample :
    (ParseCombined combinedBadTimeLine).isSome = true ∧
    (ParseCombined combinedBadTimeLine).map (fun e => e.DurationMs) = some 0 := by
  exact ⟨by decide, by decide⟩

/-- C8 (amended): a malformed numeric field in the grammar fails the whole
line — a status field containing a non-digit fails both formats, and an
oversized (beyond int64) status, bytes or duration digit-run fails its
format — except the Combined format's optional trailing request-time token:
when present but unparseable it is silently ignored and the line parses
with duration 0. -/
theorem C8_malformed_numerics :
    (∀ ip ident usr ts method path proto statusS rest : List Char, ∀ c : Char,
      plainField ip → plainField ident → plainField usr → tsOk ts →
      plainField method → plainField path → protoOk proto →
      (∀ x ∈ statusS, isGoSpace x = false) → c ∈ statusS → c.isDigit = false →
      ParseTraefik (renderHead ip ident usr ts method path proto statusS rest) = none ∧
      ParseCombined (renderHead ip ident usr ts method path proto statusS rest) = none) ∧
    (∀ ip ident usr ts method path proto statusS bytesS ref ua reqnum router
        backend durS : List Char, ∀ t : Int,
      plainField ip → plainField ident → plainField usr → tsOk ts →
      plainField method → plainField path → protoOk proto → digitsOk statusS →
      digitsOk bytesS → quotedOk ref → quotedOk ua → digitsOk reqnum →
      quotedOk router → quotedOk backend → digitsOk durS →
      parseClfTimestamp ts = some t →
      (¬(digitsToNat statusS ≤ maxInt64) ∨ ¬(digitsToNat bytesS ≤ maxInt64) ∨
        ¬(digitsToNat durS ≤ maxInt64)) →
      ParseTraefik (renderHead ip ident usr ts method path proto statusS
        (renderTraefikTail bytesS ref ua reqnum router backend durS)) = none) ∧
    (∀ ip ident usr ts method path proto statusS bytesS ref ua token : List Char,
        ∀ t : Int,
      plainField ip → plainField ident → plainField usr → tsOk ts →
      plainField method → plainField path → protoOk proto → digitsOk statusS →
      digitsOk bytesS → quotedOk ref → quotedOk ua →
      token ≠ [] → (∀ x ∈ token, isGoSpace x = false) →
      parseClfTimestamp ts = some t →
      (¬(digitsToNat statusS ≤ maxInt64) ∨ ¬(digitsToNat bytesS ≤ maxInt64)) →
      ParseCombined (renderHead ip ident usr ts method path proto statusS
        (renderCombinedTail bytesS ref ua (' ' :: token))) = none) ∧
    (∀ ip ident usr ts method path proto statusS bytesS ref ua token : List Char,
        ∀ t : Int,
      plainField ip → plainField ident → plainField usr → tsOk ts →
      plainField method → plainField path → protoOk proto → digitsOk statusS →
      digitsOk bytesS → quotedOk ref → quotedOk ua →
      token ≠ [] → (∀ x ∈ token, isGoSpace x = false) →
      parseClfTimestamp ts = some t →
      digitsToNat statusS ≤ maxInt64 → digitsToNat bytesS ≤ maxInt64 →
      parseGoFloat token = none →
      ∃ e, ParseCombined (renderHead ip ident usr ts method path proto statusS
        (renderCombinedTail bytesS ref ua (' ' :: token))) = some e ∧
        e.DurationMs = 0) := by
  refine ⟨?_, ?_, ?_, ?_⟩
  · intro ip ident usr ts method path proto statusS rest c
      h1 h2 h3 h4 h5 h6 h7 hplain hc hcd
    have hhead := pHead_fail_status rest h1 h2 h3 h4 h5 h6 h7 hplain hc hcd
    exact ⟨ParseTraefik_pHead_none hhead, ParseCombined_pHead_none hhead⟩
  · intro ip ident usr ts method path proto statusS bytesS ref ua reqnum router
      backend durS t h1 h2 h3 h4 h5 h6 h7 h8 hb hr hu hn ho hk hd hts hov
    rw [ParseTraefik_render_eval h1 h2 h3 h4 h5 h6 h7 h8 hb hr hu hn ho hk hd hts]
    rcases hov with h | h | h <;> simp [goAtoiDigits, h]
  · intro ip ident usr ts method path proto statusS bytesS ref ua token t
      h1 h2 h3 h4 h5 h6 h7 h8 hb hr hu htne htp hts hov
    rw [ParseCombined_render_eval h1 h2 h3 h4 h5 h6 h7 h8 hb hr hu htne htp hts]
    have hdash : (bytesS == ['-']) = false := by
      apply beq_eq_false_iff_ne.2
      intro hbe
      have := hb.2 '-' (by simp [hbe])
      simp at this
    rcases hov with h | h <;> simp [goAtoiDigits, h, hdash]
  · intro ip ident usr ts method path proto statusS bytesS ref ua token t
      h1 h2 h3 h4 h5 h6 h7 h8 hb hr hu htne htp hts hs64 hb64 hpf
    rw [ParseCombined_render_eval h1 h2 h3 h4 h5 h6 h7 h8 hb hr hu htne htp hts]
    have hdash : (bytesS == ['-']) = false := by
      apply beq_eq_false_iff_ne.2
      intro hbe
      have := hb.2 '-' (by simp [hbe])
      simp at this
    simp [goAtoiDigits, hs64, hb64, hdash, hpf]

/-- Witness for C8: a non-digit status fails both formats; oversized
digit-runs fail their format; an unparseable request-time token is ignored
with duration 0. -/
theorem C8_malformed_numerics_witness :
    (ParseTraefik (renderHead "1.2.3.4".toList ['-'] ['-']
        "10/Jan/2026:14:00:00 +0000".toList "GET".toList "/a".toList
        "HTTP/1.1".toList "20x".toList "rest".toList) = none ∧
      ParseCombined (renderHead "1.2.3.4".toList ['-'] ['-']
        "10/Jan/2026:14:00:00 +0000".toList "GET".toList "/a".toList
        "HTTP/1.1".toList "20x".toList "rest".toList) = none) ∧
    ParseTraefik (renderHead "1.2.3.4".toList ['-'] ['-']
      "10/Jan/2026:14:00:00 +0000".toList "GET".toList "/a".toList
      "HTTP/1.1".toList "99999999999999999999".toList
      (renderTraefikTail "1".toList [] "x".toList "1".toList "r".toList
        "b".toList "1".toList)) = none ∧
    ParseCombined (renderHead "1.2.3.4".toList ['-'] ['-']
      "10/Jan/2026:14:00:00 +0000".toList "GET".toList "/a".toList
      "HTTP/1.1".toList "200".toList
      (renderCombinedTail "99999999999999999999".toList [] "x".toList
        (' ' :: "0.1".toList))) = none ∧
    (ParseCombined (renderHead "1.2.3.4".toList ['-'] ['-']
        "10/Jan/2026:14:00:00 +0000".toList "GET".toList "/a".toList
        "HTTP/1.1".toList "201".toList
        (renderCombinedTail "512".toList [] "curl/7.68.0".toList
          (' ' :: "abc".toList)))).map (fun e => e.DurationMs) = some 0 := by
  refine ⟨?_, ?_, ?_, ?_⟩
  · exact C8_malformed_numerics.1 "1.2.3.4".toList ['-'] ['-']
      "10/Jan/2026:14:00:00 +0000".toList "GET".toList "/a".toList
      "HTTP/1.1".toList "20x".toList "rest".toList 'x'
      (by decide) (by decide) (by decide) (by decide) (by decide) (by decide)
      (by decide) (by decide) (by decide) (by decide)
  · exact C8_malformed_numerics.2.1 "1.2.3.4".toList ['-'] ['-']
      "10/Jan/2026:14:00:00 +0000".toList "GET".toList "/a".toList
      "HTTP/1.1".toList "99999999999999999999".toList "1".toList []
      "x".toList "1".toList "r".toList "b".toList "1".toList 1768053600
      (by decide) (by decide) (by decide) (by decide) (by decide) (by decide)
      (by decide) (by decide) (by decide) (by decide) (by decide) (by decide)
      (by decide) (by decide) (by decide) (by decide) (Or.inl (by decide))
  · exact C8_malformed_numerics.2.2.1 "1.2.3.4".toList ['-'] ['-']
      "10/Jan/2026:14:00:00 +0000".toList "GET".toList "/a".toList
      "HTTP/1.1".toList "200".toList "99999999999999999999".toList []
      "x".toList "0.1".toList 1768053600
      (by decide) (by decide) (by decide) (by decide) (by decide) (by decide)
      (by decide) (by decide) (by decide) (by decide) (by decide) (by decide)
      (by decide) (by decide) (Or.inr (by decide))
  · have h := C8_malformed_numerics.2.2.2 "1.2.3.4".toList ['-'] ['-']
      "10/Jan/2026:14:00:00 +0000".toList "GET".toList "/a".toList
      "HTTP/1.1".toList "201".toList "512".toList [] "curl/7.68.0".toList
      "abc".toList 1768053600
      (by decide) (by decide) (by decide) (by decide) (by decide) (by decide)
      (by decide) (by decide) (by decide) (by decide) (by decide) (by decide)
      (by decide) (by decide) (by decide) (by decide) (by decide)
    obtain ⟨e, he, hd⟩ := h
    rw [he]
    simp [hd]

/-- C5 counterexample: the empty User-Agent is classified as a generic bot
by `isBot`, yet `ClassifyUA` returns "unknown" for it (its empty/dash check
precedes the bot check), refuting the claim that `ClassifyUA` returns
"bot" for every generic-bot User-Agent. -/
theorem C5_counterexample :
    isBot [] = true ∧ ClassifyUA [] ≠ "bot".toList := by
  exact ⟨by decide, by decide⟩

/-- C5 (amended): `ClassifyUA` returns "unknown" for an empty or dash
User-Agent (even though the bot classifier marks those as bots); otherwise
it returns a known bot token occurring in the lowered UA when one does;
otherwise "bot" when the bot classifier marks the UA as a generic bot;
otherwise a browser label by ordered substring checks (Edge first, then
Chrome excluding Chromium, then Firefox, then Safari excluding Chrome);
otherwise "unknown". -/
theorem C5_classify_ua (ua : List Char) :
    (lowerStr ua = [] ∨ lowerStr ua = ['-'] →
      ClassifyUA ua = "unknown".toList) ∧
    (lowerStr ua ≠ [] → lowerStr ua ≠ ['-'] →
      (∃ b ∈ knownBots, containsSub (lowerStr ua) b = true) →
      ClassifyUA ua ∈ knownBots ∧
        containsSub (lowerStr ua) (ClassifyUA ua) = true) ∧
    (lowerStr ua ≠ [] → lowerStr ua ≠ ['-'] →
      (∀ b ∈ knownBots, containsSub (lowerStr ua) b = false) →
      isBot ua = true → ClassifyUA ua = "bot".toList) ∧
    (lowerStr ua ≠ [] → lowerStr ua ≠ ['-'] →
      (∀ b ∈ knownBots, containsSub (lowerStr ua) b = false) →
      isBot ua = false →
      (containsSub (lowerStr ua) "edg/".toList = true →
        ClassifyUA ua = "Edge".toList) ∧
      (containsSub (lowerStr ua) "edg/".toList = false →
        containsSub (lowerStr ua) "chrome/".toList = true →
        containsSub (lowerStr ua) "chromium".toList = false →
        ClassifyUA ua = "Chrome".toList) ∧
      (containsSub (lowerStr ua) "edg/".toList = false →
        (containsSub (lowerStr ua) "chrome/".toList &&
          !containsSub (lowerStr ua) "chromium".toList) = false →
        containsSub (lowerStr ua) "firefox/".toList = true →
        ClassifyUA ua = "Firefox".toList) ∧
      (containsSub (lowerStr ua) "edg/".toList = false →
        (containsSub (lowerStr ua) "chrome/".toList &&
          !containsSub (lowerStr ua) "chromium".toList) = false →
        containsSub (lowerStr ua) "firefox/".toList = false →
        containsSub (lowerStr ua) "safari/".toList = true →
        containsSub (lowerStr ua) "chrome/".toList = false →
        ClassifyUA ua = "Safari".toList) ∧
      (containsSub (lowerStr ua) "edg/".toList = false →
        (containsSub (lowerStr ua) "chrome/".toList &&
          !containsSub (lowerStr ua) "chromium".toList) = false →
        containsSub (lowerStr ua) "firefox/".toList = false →
        (containsSub (lowerStr ua) "safari/".toList &&
          !containsSub (lowerStr ua) "chrome/".toList) = false →
        ClassifyUA ua = "unknown".toList)) := by
  refine ⟨?_, ?_, ?_, ?_⟩
  · intro h
    unfold ClassifyUA
    rcases h with h | h <;> simp [h]
  · intro hne hnd hex
    have hc1 : (lowerStr ua == []) = false := beq_eq_false_iff_ne.2 hne
    have hc2 : (lowerStr ua == ['-']) = false := beq_eq_false_iff_ne.2 hnd
    have hf : (knownBots.find? (fun b => containsSub (lowerStr ua) b)).isSome := by
      rw [List.find?_isSome]
      obtain ⟨b, hbmem, hbc⟩ := hex
      exact ⟨b, hbmem, hbc⟩
    obtain ⟨b0, hb0⟩ := Option.isSome_iff_exists.1 hf
    unfold ClassifyUA
    simp only [hc1, hc2, Bool.or_self, Bool.false_or, if_false, hb0]
    exact ⟨List.mem_of_find?_eq_some hb0, List.find?_some hb0⟩
  · intro hne hnd hnone hbot
    have hc1 : (lowerStr ua == []) = false := beq_eq_false_iff_ne.2 hne
    have hc2 : (lowerStr ua == ['-']) = false := beq_eq_false_iff_ne.2 hnd
    have hf : knownBots.find? (fun b => containsSub (lowerStr ua) b) = none := by
      rw [List.find?_eq_none]
      exact fun b hb => by simp [hnone b hb]
    unfold ClassifyUA
    simp [hc1, hc2, hf, hbot]
  · intro hne hnd hnone hbot
    have hc1 : (lowerStr ua == []) = false := beq_eq_false_iff_ne.2 hne
    have hc2 : (lowerStr ua == ['-']) = false := beq_eq_false_iff_ne.2 hnd
    have hf : knownBots.find? (fun b => containsSub (lowerStr ua) b) = none := by
      rw [List.find?_eq_none]
      exact fun b hb => by simp [hnone b hb]
    refine ⟨?_, ?_, ?_, ?_, ?_⟩
    · intro hedg
      unfold ClassifyUA
      simp at hedg
      simp [hc1, hc2, hf, hbot, hedg]
    · intro hedg hchr hchm
      unfold ClassifyUA
      simp at hedg hchr hchm
      simp [hc1, hc2, hf, hbot, hedg, hchr, hchm]
    · intro hedg hchr hff
      unfold ClassifyUA
      simp at hedg hff
      cases hcb : containsSub (lowerStr ua) "chrome/".toList with
      | false =>
        simp at hcb
        simp [hc1, hc2, hf, hbot, hedg, hff, hcb]
      | true =>
        rw [hcb] at hchr
        simp at hchr hcb
        simp [hc1, hc2, hf, hbot, hedg, hff, hchr, hcb]
    · intro hedg hchr hff hsf hchrome
      unfold ClassifyUA
      simp at hedg hchr hff hsf hchrome
      simp [hc1, hc2, hf, hbot, hedg, hchr, hff, hsf, hchrome]
    · intro hedg hchr hff hsf
      unfold ClassifyUA
      simp at hedg hff
      cases hcb : containsSub (lowerStr ua) "chrome/".toList with
      | false =>
        rw [hcb] at hsf
        simp at hcb hsf
        simp [hc1, hc2, hf, hbot, hedg, hff, hcb, hsf]
      | true =>
        rw [hcb] at hchr
        simp at hchr hcb
        simp [hc1, hc2, hf, hbot, hedg, hff, hchr, hcb]

/-- Witness for C5: one User-Agent through each branch of the
classification. -/
theorem C5_classify_ua_witness :
    ClassifyUA [] = "unknown".toList ∧
    (ClassifyUA "Mozilla/5.0 (compatible; Googlebot/2.1)".toList ∈ knownBots ∧
      containsSub (lowerStr "Mozilla/5.0 (compatible; Googlebot/2.1)".toList)
        (ClassifyUA "Mozilla/5.0 (compatible; Googlebot/2.1)".toList) = true) ∧
    ClassifyUA "Go-http-client/1.1".toList = "bot".toList ∧
    ClassifyUA "XyzBrowser Edg/120.0".toList = "Edge".toList := by
  refine ⟨?_, ?_, ?_, ?_⟩
  · exact (C5_classify_ua []).1 (Or.inl (by decide))
  · exact (C5_classify_ua "Mozilla/5.0 (compatible; Googlebot/2.1)".toList).2.1
      (by decide) (by decide) ⟨"googlebot".toList, by decide, by decide⟩
  · exact (C5_classify_ua "Go-http-client/1.1".toList).2.2.1
      (by decide) (by decide) (by decide) (by decide)
  · exact ((C5_classify_ua "XyzBrowser Edg/120.0".toList).2.2.2
      (by decide) (by decide) (by decide) (by decide)).1 (by decide)

/-- C3 counterexample: with a failing store, a tick's flush makes
`runEvent` exit with an error (`Run` returns the flush error), refuting the
claim that the aggregator loop keeps consuming lines after a failed
flush. -/
theorem C3_counterexample :
    runEvent envA (fun _ => false) Format.traefik stateOne AggEvent.tick =
      RunOutcome.exitErr ⟨emptyBuffers, emptyDB, 1⟩ := rfl

/-- C3 (amended): when a flush transaction fails at a tick, the transaction
is rolled back (the store is unchanged), the swapped-out buffers are
discarded (fresh empty buffers remain), and `Run` returns the error: the
loop exits and the remaining events are not consumed — rather than
continuing as claimed. -/
theorem C3_flush_failure_exits (env : AggEnv) (flushOk : Nat → Bool)
    (fmt : Format) (s : AggRunState) (rest : List AggEvent)
    (hbuf : s.bufs.bufferSize ≠ 0) (hfail : flushOk s.flushCount = false) :
    runEvent env flushOk fmt s AggEvent.tick =
      RunOutcome.exitErr ⟨emptyBuffers, s.db, s.flushCount + 1⟩ ∧
    runEvents env flushOk fmt s (AggEvent.tick :: rest) =
      RunOutcome.exitErr ⟨emptyBuffers, s.db, s.flushCount + 1⟩ := by
  have hstep : runEvent env flushOk fmt s AggEvent.tick =
      RunOutcome.exitErr ⟨emptyBuffers, s.db, s.flushCount + 1⟩ := by
    have hb : (s.bufs.bufferSize == 0) = false := by
      simpa using hbuf
    simp [runEvent, flush, hb, hfail]
  exact ⟨hstep, by simp [runEvents, hstep]⟩

/-- Witness for C3 at the concrete one-entry state with an always-failing
store. -/
theorem C3_flush_failure_exits_witness :
    runEvent envA (fun _ => false) Format.traefik stateOne AggEvent.tick =
      RunOutcome.exitErr ⟨emptyBuffers, stateOne.db, stateOne.flushCount + 1⟩ ∧
    runEvents envA (fun _ => false) Format.traefik stateOne
        (AggEvent.tick :: [AggEvent.line []]) =
      RunOutcome.exitErr ⟨emptyBuffers, stateOne.db, stateOne.flushCount + 1⟩ :=
  C3_flush_failure_exits envA (fun _ => false) Format.traefik stateOne
    [AggEvent.line []] (by decide) rfl

/-- C6: aggregation is order-independent — processing any permutation of a
list of input lines (parse with the configured format, drop parse failures,
accumulate) from the same starting buffers yields the same final contents
of all in-memory aggregate buffers. -/
theorem C6_aggregation_order_independent (env : AggEnv) (fmt : Format)
    (st : AggBuffers) {l1 l2 : List (List Char)} (h : l1.Perm l2) :
    l1.foldl (consumeLine env fmt) st = l2.foldl (consumeLine env fmt) st := by
  haveI : RightCommutative (consumeLine env fmt) :=
    ⟨fun b a1 a2 => consumeLine_comm env fmt b a1 a2⟩
  exact h.foldl_eq st

/-- Witness for C6: the two sample lines accumulated in either order give
the same buffers. -/
theorem C6_aggregation_order_independent_witness :
    [traefikSample, combinedSample].foldl (consumeLine envA Format.auto)
        emptyBuffers =
      [combinedSample, traefikSample].foldl (consumeLine envA Format.auto)
        emptyBuffers :=
  C6_aggregation_order_independent envA Format.auto emptyBuffers
    (List.Perm.swap combinedSample traefikSample [])

/-- C9 counterexample: an entry whose parsed router is literally "unrouted"
with a non-bot User-Agent is classified human, so a visitors-buffer key
with router "unrouted" is inserted — refuting the claim that the visitors
table never contains a row with router "unrouted". -/
theorem C9_counterexample :
    Classify entryUnroutedName = "human".toList ∧
    (accumulate envA entryUnroutedName emptyBuffers).visitors
      ⟨HourBucket 0, "unrouted".toList, "9.9.9.9".toList⟩ = true := by
  exact ⟨by decide, by decide⟩

/-- C9 (amended): every key newly inserted into the visitors buffer comes
from an entry classified human: its router is nonempty and equals the
entry's parsed router, and the entry's User-Agent is not classified as
bot.  (The router can still be the literal string "unrouted" when the
parsed router is that very string.) -/
theorem C9_visitor_router_nonempty (env : AggEnv) (st : AggBuffers)
    (entries : List LogEntry) (k : visitorKey)
    (hafter : (entries.foldl (fun b e => accumulate env e b) st).visitors k = true)
    (hbefore : st.visitors k = false) :
    k.Router ≠ [] ∧
      ∃ e ∈ entries, Classify e = "human".toList ∧ e.Router ≠ [] ∧
        isBot e.UserAgent = false ∧ k.Router = e.Router := by
  induction entries generalizing st with
  | nil =>
    rw [List.foldl_nil] at hafter
    rw [hafter] at hbefore
    cases hbefore
  | cons e es ih =>
    rw [List.foldl_cons] at hafter
    by_cases hmid : (accumulate env e st).visitors k = true
    · by_cases hcl : Classify e = "human".toList
      · have hv : updateVisitors env e st.visitors k = true := hmid
        unfold updateVisitors at hv
        rw [if_pos (by simp [hcl])] at hv
        unfold markVisitor at hv
        by_cases hk : k = ⟨HourBucket e.Timestamp, routerOf e, env.hashIP e.IP⟩
        · have hrne : e.Router ≠ [] := by
            intro hre
            unfold Classify at hcl
            rw [if_pos (by simp [hre])] at hcl
            exact absurd hcl (by decide)
          have hbot : isBot e.UserAgent = false := by
            rcases Bool.eq_false_or_eq_true (isBot e.UserAgent) with hb | hb
            · exfalso
              unfold Classify at hcl
              rw [if_neg (by simp [hrne]), if_pos (by simp [hb])] at hcl
              exact absurd hcl (by decide)
            · exact hb
          have hkr : k.Router = e.Router := by
            rw [hk]
            simp [routerOf, hrne]
          refine ⟨by rw [hkr]; exact hrne, e, by simp, hcl, hrne, hbot, hkr⟩
        · rw [if_neg hk] at hv
          rw [hv] at hbefore
          cases hbefore
      · have hv : updateVisitors env e st.visitors k = true := hmid
        unfold updateVisitors at hv
        rw [if_neg (by simpa using hcl)] at hv
        rw [hv] at hbefore
        cases hbefore
    · have hmid2 : (accumulate env e st).visitors k = false := by
        rcases Bool.eq_false_or_eq_true ((accumulate env e st).visitors k) with h | h
        · exact absurd h hmid
        · exact h
      obtain ⟨hkr, e2, he2mem, hP⟩ := ih (accumulate env e st) hafter hmid2
      exact ⟨hkr, e2, List.mem_cons_of_mem e he2mem, hP⟩

/-- Witness for C9 at the concrete human entry. -/
theorem C9_visitor_router_nonempty_witness :
    (⟨0, "web@docker".toList, "1.2.3.4".toList⟩ : visitorKey).Router ≠ [] :=
  (C9_visitor_router_nonempty envA emptyBuffers [entryHuman]
    ⟨0, "web@docker".toList, "1.2.3.4".toList⟩ (by decide) (by decide)).1

/-- C2: backfill is exactly-once under normal completion — after a run,
every file (with positive size and distinct paths) satisfies the import
criterion `offset == size > 0`, because each processed file is marked with
`log_position(path, size, 0, size)`; a second run over the same files is a
no-op (its pending set is empty), so aggregate counts are inflated exactly
once: the delivered lines are exactly one copy of the pending files'
non-blank lines. -/
theorem C2_backfill_exactly_once (st : BackfillState) (files : List RotatedFile)
    (hnd : (files.map (fun f => f.path)).Nodup)
    (hsz : ∀ f ∈ files, 0 < f.size) :
    (∀ f ∈ files, isImported (backfillRun st files).pos f.path = true) ∧
    backfillRun (backfillRun st files) files = backfillRun st files ∧
    (backfillRun st files).agg = st.agg ++
      ((files.filter (fun f => !isImported st.pos f.path)).map
        (fun f => f.lines.filter (fun l => l != []))).flatten := by
  have hpend_nd :
      ((files.filter (fun f => !isImported st.pos f.path)).map
        (fun f => f.path)).Nodup := by
    refine List.Nodup.sublist ?_ hnd
    exact List.Sublist.map _ (List.filter_sublist files)
  have hpend_sz : ∀ f ∈ files.filter (fun f => !isImported st.pos f.path),
      0 < f.size :=
    fun f hf => hsz f (List.mem_of_mem_filter hf)
  have himp : ∀ f ∈ files, isImported (backfillRun st files).pos f.path = true := by
    intro f hf
    by_cases hp : isImported st.pos f.path = true
    · have hnotin : f.path ∉
          (files.filter (fun g => !isImported st.pos g.path)).map
            (fun g => g.path) := by
        intro hmem
        obtain ⟨g, hgf, hgp⟩ := List.mem_map.1 hmem
        have hgfiles : g ∈ files := List.mem_of_mem_filter hgf
        have hgef : g = f := List.inj_on_of_nodup_map hnd hgfiles hf hgp
        subst hgef
        have hgp2 := List.of_mem_filter hgf
        simp [hp] at hgp2
      unfold backfillRun
      rw [isImported_congr (foldl_backfillStep_pos_not_mem _ st f.path hnotin)]
      exact hp
    · have hfpend : f ∈ files.filter (fun g => !isImported st.pos g.path) :=
        List.mem_filter.2 ⟨hf, by simp [hp]⟩
      exact foldl_backfillStep_imported _ st hpend_nd hpend_sz f hfpend
  have hpend2 : files.filter
      (fun f => !isImported (backfillRun st files).pos f.path) = [] := by
    rw [List.filter_eq_nil_iff]
    intro f hf
    simp [himp f hf]
  refine ⟨himp, ?_, ?_⟩
  · calc backfillRun (backfillRun st files) files
        = (files.filter (fun f =>
            !isImported (backfillRun st files).pos f.path)).foldl backfillStep
            (backfillRun st files) := rfl
      _ = ([] : List RotatedFile).foldl backfillStep (backfillRun st files) := by
            rw [hpend2]
      _ = backfillRun st files := rfl
  · exact foldl_backfillStep_agg _ st

/-- Witness for C2 on one rotated file over an empty store. -/
theorem C2_backfill_exactly_once_witness :
    isImported (backfillRun bstate0 [bfile1]).pos bfile1.path = true ∧
    backfillRun (backfillRun bstate0 [bfile1]) [bfile1] =
      backfillRun bstate0 [bfile1] ∧
    (backfillRun bstate0 [bfile1]).agg = bstate0.agg ++
      (([bfile1].filter (fun f => !isImported bstate0.pos f.path)).map
        (fun f => f.lines.filter (fun l => l != []))).flatten :=
  ⟨(C2_backfill_exactly_once bstate0 [bfile1] (by decide) (by decide)).1
      bfile1 (by simp),
   (C2_backfill_exactly_once bstate0 [bfile1] (by decide) (by decide)).2.1,
   (C2_backfill_exactly_once bstate0 [bfile1] (by decide) (by decide)).2.2⟩
